import Mathlib

/-!
Shallow embedding of the centipede game engine (src/centipede.py) and proofs
about its specification.

Modelling conventions:
* Python integers are `Int`; Python floor division `//` is `Int.fdiv`.
* Python lists are `List`; indexing follows Python semantics (negative indices
  wrap from the end, out-of-range indexing raises `IndexError`), captured by
  the `Py` error monad below.
* `random.randint(lo, hi)` and `random.random()` are modelled by oracle
  parameters: `pyRandint` clamps an oracle draw into `[lo, hi]` and raises
  `ValueError` when `lo > hi`, exactly as the Python call would; the uniform
  `[0,1)` draw feeding the evasion test is passed in as a rational.
* Functions that can raise run in `Py := Except PyError`; functions that touch
  no board index are pure.
-/

inductive PyError where
  | indexError
  | valueError
deriving DecidableEq, Repr

abbrev Py (α : Type) : Type := Except PyError α

/-- Python list index resolution: a negative index counts from the end;
an index out of `[-n, n)` raises `IndexError`. -/
def pyIdx (n : Nat) (i : Int) : Py Nat :=
  if 0 ≤ i then
    (if i < (n : Int) then .ok i.toNat else .error .indexError)
  else
    (if 0 ≤ i + (n : Int) then .ok (i + (n : Int)).toNat else .error .indexError)

/-- Python `l[i]`. -/
def pyGet {α : Type} (l : List α) (i : Int) : Py α := do
  let j ← pyIdx l.length i
  match l.get? j with
  | some a => .ok a
  | none => .error .indexError

/-- Python `l[i] = a`. -/
def pySet {α : Type} (l : List α) (i : Int) (a : α) : Py (List α) := do
  let j ← pyIdx l.length i
  .ok (l.set j a)

/-- Python `random.randint(lo, hi)`: `ValueError` on an empty range, otherwise
an arbitrary value of `[lo, hi]`, taken from the oracle draw `v` (clamped so
that every oracle yields a legal draw and every legal draw is reachable). -/
def pyRandint (lo hi v : Int) : Py Int :=
  if lo ≤ hi then .ok (max lo (min v hi)) else .error .valueError

/-- `GameEntity` enum of src/centipede.py. -/
inductive GameEntity where
  | EMPTY
  | PLAYER
  | CENTIPEDE
  | MUSHROOM
  | BULLET
deriving DecidableEq, Repr

/-- The `value` attribute of each `GameEntity` member. -/
def GameEntity.value : GameEntity → String
  | .EMPTY => " "
  | .PLAYER => "P"
  | .CENTIPEDE => "O"
  | .MUSHROOM => "M"
  | .BULLET => "·"

/-- `Direction` enum of src/centipede.py. -/
inductive Direction where
  | LEFT
  | RIGHT
  | DOWN
deriving DecidableEq, Repr

/-- The unit displacement vector of a `Direction`. -/
def Direction.value : Direction → Int × Int
  | .LEFT => (-1, 0)
  | .RIGHT => (1, 0)
  | .DOWN => (0, 1)

/-- `Position` dataclass. -/
structure Position where
  x : Int
  y : Int
deriving DecidableEq, Repr

/-- `Position.move`. -/
def Position.move (p : Position) (d : Direction) : Position :=
  ⟨p.x + d.value.1, p.y + d.value.2⟩

/-- The `GameState` TypedDict.  The board holds the raw cell strings the
Python code stores. -/
structure GameState where
  board : List (List String)
  score : Int
  player_pos : Position
  centipede_segments : List Position
  mushrooms : List Position
  bullets : List Position
  game_over : Bool
  direction : Direction
deriving DecidableEq, Repr

/-- Python `board[y][x] = v` on the nested board list. -/
def setCell (b : List (List String)) (y x : Int) (v : String) : Py (List (List String)) := do
  let row ← pyGet b y
  let row2 ← pySet row x v
  pySet b y row2

/-- `move_player` (src/centipede.py lines 244-249).  The chained Python
comparison `0 <= new_pos.x < len(state['board'][0])` short-circuits, so
`len(board[0])` is only evaluated once `0 <= new_pos.x` holds. -/
def move_player (s : GameState) (d : Direction) : Py GameState :=
  let new_pos := s.player_pos.move d
  if new_pos.x < 0 then .ok s
  else do
    let row0 ← pyGet s.board 0
    if new_pos.x < (row0.length : Int) then
      if new_pos.y < 0 then .ok s
      else if new_pos.y < (s.board.length : Int) then .ok { s with player_pos := new_pos }
      else .ok s
    else .ok s

/-- `shoot` (lines 251-254). -/
def shoot (s : GameState) : GameState :=
  { s with bullets := s.bullets ++ [⟨s.player_pos.x, s.player_pos.y - 1⟩] }

/-- `ShooterAgent.predict_centipede_position` (lines 52-66).  `len(board[0])`
is evaluated only in the `direction == RIGHT` conjunct, mirroring Python's
short-circuit evaluation. -/
def predict_centipede_position (s : GameState) : Py Position :=
  match s.centipede_segments with
  | [] => .ok s.player_pos
  | head :: _ =>
    if s.direction = .RIGHT then do
      let row0 ← pyGet s.board 0
      if head.x < (row0.length : Int) - 1 then .ok ⟨head.x + 1, head.y⟩
      else .ok ⟨head.x, head.y + 1⟩
    else if s.direction = .LEFT ∧ 0 < head.x then .ok ⟨head.x - 1, head.y⟩
    else .ok ⟨head.x, head.y + 1⟩

/-- `ShooterAgent.make_decision` (lines 68-87). -/
def shooter_make_decision (strategy : String) (s : GameState) : Py GameState :=
  match s.centipede_segments with
  | [] => .ok s
  | head :: _ => do
    let target ← if strategy = "predictive" then predict_centipede_position s else .ok head
    let s1 ← if s.player_pos.x < target.x then move_player s .RIGHT
             else if target.x < s.player_pos.x then move_player s .LEFT
             else .ok s
    if |s1.player_pos.x - target.x| ≤ 1 then .ok (shoot s1) else .ok s1

/-- `CentipedeAgent.make_decision` (lines 94-119).  The agent's mutable
`direction_change_cooldown` is threaded explicitly; `rand` is this tick's
`random.random()` draw.  Both direction flips test `current_direction`, the
direction read before the bullet loop, exactly as the source does. -/
def centipede_make_decision (strategy : String) (cooldown : Int) (rand : ℚ)
    (s : GameState) : GameState × Int :=
  match s.centipede_segments with
  | [] => (s, cooldown)
  | head :: _ =>
    let current_direction := s.direction
    let dc := s.bullets.foldl
      (fun (dc : Direction × Int) bullet =>
        if |bullet.x - head.x| ≤ 1 ∧ bullet.y < head.y then
          (if dc.2 ≤ 0 then
            ((if current_direction = .RIGHT then .LEFT else .RIGHT), 3)
          else dc)
        else dc)
      (s.direction, cooldown)
    let cd2 := max 0 (dc.2 - 1)
    if strategy = "evasive" ∧ rand < 1/10 ∧ cd2 ≤ 0 then
      ({ s with direction := if current_direction = .RIGHT then .LEFT else .RIGHT }, 3)
    else
      ({ s with direction := dc.1 }, cd2)

/-- `initialize_board` (lines 121-122): `range` of a non-positive bound is
empty, hence `Int.toNat`. -/
def initialize_board (width height : Int) : List (List String) :=
  List.replicate height.toNat (List.replicate width.toNat GameEntity.EMPTY.value)

/-- `initialize_game` (lines 124-154).  `draws` is the oracle stream feeding
the twenty `(randint x, randint y)` mushroom draws. -/
def initialize_game (width height : Int) (draws : Nat → Int × Int) : Py GameState := do
  let board0 := initialize_board width height
  let player_pos : Position := ⟨Int.fdiv width 2, height - 1⟩
  let board1 ← setCell board0 player_pos.y player_pos.x GameEntity.PLAYER.value
  let centipede_segments := (List.range 8).map (fun i => (⟨(i : Int), 0⟩ : Position))
  let board2 ← centipede_segments.foldlM
    (fun bb p => setCell bb p.y p.x GameEntity.CENTIPEDE.value) board1
  let md ← (List.range 20).foldlM
    (fun (acc : List Position × List (List String)) i => do
      let x ← pyRandint 0 (width - 1) (draws i).1
      let y ← pyRandint 2 (height - 3) (draws i).2
      let pos : Position := ⟨x, y⟩
      let bb ← setCell acc.2 pos.y pos.x GameEntity.MUSHROOM.value
      .ok (acc.1 ++ [pos], bb))
    (([] : List Position), board2)
  .ok { board := md.2, score := 0, player_pos := player_pos,
        centipede_segments := centipede_segments, mushrooms := md.1,
        bullets := [], game_over := false, direction := .RIGHT }

/-- Board-clearing loop of `update_game_state` (lines 169-172): every cell of
the first `height` rows and first `width` columns is reset to EMPTY in place. -/
def clear_board (height width : Nat) (b : List (List String)) : Py (List (List String)) :=
  (List.range height).foldlM
    (fun bb (y : Nat) =>
      (List.range width).foldlM
        (fun bbb (x : Nat) => setCell bbb (y : Int) (x : Int) GameEntity.EMPTY.value) bb)
    b

/-- The inner collision scan of the bullet loop (lines 181-188): find the
first segment, in sequence order, whose coordinates equal `new_pos`; return
it together with the list with exactly that occurrence deleted
(`del state['centipede_segments'][i]`). -/
def hit_segment (new_pos : Position) : List Position → Option (Position × List Position)
  | [] => none
  | seg :: rest =>
    if new_pos.x = seg.x ∧ new_pos.y = seg.y then some (seg, rest)
    else
      match hit_segment new_pos rest with
      | some (hit, remaining) => some (hit, seg :: remaining)
      | none => none

/-- One iteration of the bullet loop (lines 176-191) acting on the running
state: move the bullet up; drop it above the top row; otherwise destroy the
first matching segment (score +10, segment turned into a mushroom, bullet
consumed) or keep the bullet. -/
def process_bullet (acc : GameState) (bullet : Position) : GameState :=
  let new_pos : Position := ⟨bullet.x, bullet.y - 1⟩
  if 0 ≤ new_pos.y then
    match hit_segment new_pos acc.centipede_segments with
    | some (seg, remaining) =>
      { acc with score := acc.score + 10,
                 mushrooms := acc.mushrooms ++ [⟨seg.x, seg.y⟩],
                 centipede_segments := remaining }
    | none => { acc with bullets := acc.bullets ++ [new_pos] }
  else acc

/-- The bullet phase of `update_game_state` (lines 174-192): bullets are
processed oldest-first, and `state['bullets']` is replaced by the surviving
moved bullets. -/
def update_bullets (s : GameState) : GameState :=
  s.bullets.foldl process_bullet { s with bullets := [] }

/-- The centipede movement phase of `update_game_state` (lines 194-216).
If the head sits on the edge it is heading into, the direction flips and the
whole body descends one row; then the head advances one cell in the (possibly
flipped) direction while each trailing segment i>0 takes the position segment
i-1 held in the pre-move (post-descent) sequence — so the new tail is that
sequence without its last element. -/
def move_centipede (width : Int) (s : GameState) : GameState :=
  match s.centipede_segments with
  | [] => s
  | head :: _ =>
    let needs_turn := (head.x = 0 ∧ s.direction = .LEFT) ∨
      (head.x = width - 1 ∧ s.direction = .RIGHT)
    let new_direction : Direction :=
      if needs_turn then (if s.direction = .RIGHT then .LEFT else .RIGHT)
      else s.direction
    let segs1 :=
      if needs_turn then s.centipede_segments.map (fun p => (⟨p.x, p.y + 1⟩ : Position))
      else s.centipede_segments
    let new_segments :=
      match segs1 with
      | [] => []
      | h1 :: t1 => h1.move new_direction :: (h1 :: t1).dropLast
    { s with centipede_segments := new_segments, direction := new_direction }

/-- The board redraw of `update_game_state` (lines 218-232): stamp mushrooms,
then bullets, then centipede segments, then the player. -/
def stamp_board (b0 : List (List String)) (s : GameState) : Py (List (List String)) := do
  let b1 ← s.mushrooms.foldlM
    (fun bb p => setCell bb p.y p.x GameEntity.MUSHROOM.value) b0
  let b2 ← s.bullets.foldlM
    (fun bb p => setCell bb p.y p.x GameEntity.BULLET.value) b1
  let b3 ← s.centipede_segments.foldlM
    (fun bb p => setCell bb p.y p.x GameEntity.CENTIPEDE.value) b2
  setCell b3 s.player_pos.y s.player_pos.x GameEntity.PLAYER.value

/-- The terminal check of `update_game_state` (lines 234-240): `game_over` is
raised to true when some segment sits on (or past) the bottom row or when no
segment is left; it is never lowered. -/
def check_game_over (height : Int) (s : GameState) : GameState :=
  let go1 := if s.centipede_segments.any (fun seg => decide (height - 1 ≤ seg.y))
    then true else s.game_over
  let go2 := if s.centipede_segments = [] then true else go1
  { s with game_over := go2 }

/-- `update_game_state` (lines 164-242), assembled from its phases in source
order: width/height are read from the board, the board is cleared, bullets
advance and resolve, the centipede moves, the board is redrawn, and the
terminal condition is evaluated. -/
def update_game_state (s : GameState) : Py GameState := do
  let row0 ← pyGet s.board 0
  let width := row0.length
  let height := s.board.length
  let board1 ← clear_board height width s.board
  let s1 := update_bullets { s with board := board1 }
  let s2 := move_centipede (width : Int) s1
  let board2 ← stamp_board s2.board s2
  let s3 := { s2 with board := board2 }
  .ok (check_game_over (height : Int) s3)

/-- One iteration of the driver loop `play_game_with_agents` (lines 260-270),
without the rendering and pacing collaborators: shooter decision, centipede
decision, physics update. -/
def tick (sstrat cstrat : String) (rand : ℚ) (cooldown : Int) (s : GameState) :
    Py (GameState × Int) := do
  let s1 ← shooter_make_decision sstrat s
  let sc := centipede_make_decision cstrat cooldown rand s1
  let s3 ← update_game_state sc.1
  .ok (s3, sc.2)

/-- The states (paired with the centipede agent's cooldown) reachable by the
driver loop: the initial state for some oracle stream, plus any number of
ticks taken while the game is not over, each with an arbitrary random draw. -/
inductive Reachable (w h : Int) (sstrat cstrat : String) : GameState → Int → Prop where
  | init (draws : Nat → Int × Int) (s : GameState) :
      initialize_game w h draws = .ok s → Reachable w h sstrat cstrat s 0
  | step (s : GameState) (cd : Int) (rand : ℚ) (s2 : GameState) (cd2 : Int) :
      Reachable w h sstrat cstrat s cd → s.game_over = false →
      tick sstrat cstrat rand cd s = .ok (s2, cd2) → Reachable w h sstrat cstrat s2 cd2

/-- A well-formed rectangular board: `h` rows, each of width `w`. -/
def Rect (b : List (List String)) (h w : Nat) : Prop :=
  b.length = h ∧ ∀ r ∈ b, r.length = w

/-- A position inside the `[0, w) × [0, h)` grid. -/
def InBounds (w h : Int) (p : Position) : Prop :=
  0 ≤ p.x ∧ p.x < w ∧ 0 ≤ p.y ∧ p.y < h

/-- The board cell at row `y`, column `x`, when both indices are in range. -/
def cellAt (b : List (List String)) (y x : Nat) : Option String :=
  (b[y]?).bind (fun r => r[x]?)

/-- The state invariant maintained by the driver loop for a `w × h` game:
the board stays rectangular, every entity position is on the grid, the player
sits on the bottom row, the shared direction is horizontal, and while the game
is not over no segment has reached the bottom row. -/
def GameInv (w h : Int) (s : GameState) : Prop :=
  8 ≤ w ∧ 5 ≤ h ∧ Rect s.board h.toNat w.toNat ∧
  InBounds w h s.player_pos ∧ s.player_pos.y = h - 1 ∧
  (∀ p ∈ s.centipede_segments, InBounds w h p) ∧
  (∀ p ∈ s.mushrooms, InBounds w h p) ∧
  (∀ p ∈ s.bullets, InBounds w h p) ∧
  s.direction ≠ .DOWN ∧
  (s.game_over = false → ∀ p ∈ s.centipede_segments, p.y < h - 1)

/-- The row-length profile of a board; cell writes preserve it. -/
def shape (b : List (List String)) : List Nat := b.map List.length

/-- On a board of the given row-length profile, the Python write
`board[p.y][p.x] = v` resolves (after negative-index wrapping) to row `y`,
column `x`. -/
def writesTo (sh : List Nat) (p : Position) (y x : Nat) : Prop :=
  pyIdx sh.length p.y = .ok y ∧ ∃ wl, sh[y]? = some wl ∧ pyIdx wl p.x = .ok x

/-! ### Concrete states used by witnesses and counterexamples -/

/-- A state with one centipede segment at (5,5) heading RIGHT and one bullet
at (5,0) directly above it. -/
def c8sA : GameState :=
  ⟨[], 0, ⟨0, 0⟩, [⟨5, 5⟩], [], [⟨5, 0⟩], false, .RIGHT⟩

/-- Like `c8sA` but with no bullets in flight. -/
def c8sB : GameState :=
  ⟨[], 0, ⟨0, 0⟩, [⟨5, 5⟩], [], [], false, .RIGHT⟩

/-- The state `initialize_game 8 5` produces when every mushroom draw is
(0, 2): the centipede spans the top row with its head at the left end, the
direction is RIGHT, the player sits at the bottom centre, and all twenty
mushrooms landed on (0, 2). -/
def c1s0 : GameState :=
  ⟨[["O", "O", "O", "O", "O", "O", "O", "O"],
    [" ", " ", " ", " ", " ", " ", " ", " "],
    ["M", " ", " ", " ", " ", " ", " ", " "],
    [" ", " ", " ", " ", " ", " ", " ", " "],
    [" ", " ", " ", " ", "P", " ", " ", " "]],
   0, ⟨4, 4⟩,
   [⟨0, 0⟩, ⟨1, 0⟩, ⟨2, 0⟩, ⟨3, 0⟩, ⟨4, 0⟩, ⟨5, 0⟩, ⟨6, 0⟩, ⟨7, 0⟩],
   List.replicate 20 ⟨0, 2⟩, [], false, .RIGHT⟩

/-- The state one driver tick (shooter "predictive", centipede "passive",
random draw 2) produces from `c1s0`: the head has stepped onto the pre-move
position of segment 1, so segments 0 and 2 coincide at (1, 0). -/
def c1s1 : GameState :=
  ⟨[["O", "O", "O", "O", "O", "O", "O", " "],
    [" ", " ", " ", " ", " ", " ", " ", " "],
    ["M", " ", " ", " ", " ", " ", " ", " "],
    [" ", " ", " ", " ", " ", " ", " ", " "],
    [" ", " ", " ", "P", " ", " ", " ", " "]],
   0, ⟨3, 4⟩,
   [⟨1, 0⟩, ⟨0, 0⟩, ⟨1, 0⟩, ⟨2, 0⟩, ⟨3, 0⟩, ⟨4, 0⟩, ⟨5, 0⟩, ⟨6, 0⟩],
   List.replicate 20 ⟨0, 2⟩, [], false, .RIGHT⟩

/-- A 3 × 3 state with a two-segment centipede whose head sits on the left
edge heading LEFT, exercising the edge-reversal branch. -/
def c2s : GameState :=
  ⟨[[" ", " ", " "], [" ", " ", " "], [" ", "P", " "]],
   0, ⟨1, 2⟩, [⟨0, 0⟩, ⟨1, 0⟩], [], [], false, .LEFT⟩

/-- `update_game_state c2s`: the body has descended one row with the
direction flipped to RIGHT and the head additionally moved right. -/
def c2s3 : GameState :=
  ⟨[[" ", " ", " "], ["O", "O", " "], [" ", "P", " "]],
   0, ⟨1, 2⟩, [⟨1, 1⟩, ⟨0, 1⟩], [], [], false, .RIGHT⟩

/-- A 3 × 3 state with a single segment at (0, 0) and the player at (1, 2),
exercising the reactive shooter's move-left-then-fire path. -/
def c7s : GameState :=
  ⟨[[" ", " ", " "], [" ", " ", " "], [" ", "P", " "]],
   0, ⟨1, 2⟩, [⟨0, 0⟩], [], [], false, .RIGHT⟩

/-- `shooter_make_decision "reactive" c7s`: the player moved left to (0, 2)
and fired a bullet at (0, 1). -/
def c7s1 : GameState :=
  ⟨[[" ", " ", " "], [" ", " ", " "], [" ", "P", " "]],
   0, ⟨0, 2⟩, [⟨0, 0⟩], [], [⟨0, 1⟩], false, .RIGHT⟩

/-- A 3 × 3 state with a two-segment centipede mid-board heading RIGHT. -/
def c1w : GameState :=
  ⟨[[" ", " ", " "], [" ", " ", " "], [" ", "P", " "]],
   0, ⟨1, 2⟩, [⟨1, 0⟩, ⟨0, 0⟩], [], [], false, .RIGHT⟩

/-- `update_game_state c1w`: the head advanced right and the trailing
segment took its pre-move position. -/
def c1w2 : GameState :=
  ⟨[[" ", "O", "O"], [" ", " ", " "], [" ", "P", " "]],
   0, ⟨1, 2⟩, [⟨2, 0⟩, ⟨1, 0⟩], [], [], false, .RIGHT⟩

/-- `c1w` with one mushroom added at (2, 1); all other fields agree. -/
def c10t : GameState :=
  ⟨[[" ", " ", " "], [" ", " ", " "], [" ", "P", " "]],
   0, ⟨1, 2⟩, [⟨1, 0⟩, ⟨0, 0⟩], [⟨2, 1⟩], [], false, .RIGHT⟩

/-- `update_game_state c10t`: identical to `update_game_state c1w` except
for the mushroom list and the stamped mushroom cell. -/
def c10t3 : GameState :=
  ⟨[[" ", "O", "O"], [" ", " ", "M"], [" ", "P", " "]],
   0, ⟨1, 2⟩, [⟨2, 0⟩, ⟨1, 0⟩], [⟨2, 1⟩], [], false, .RIGHT⟩

/-- The running facts maintained along the bullet loop, relative to the state
it started from. -/
def BulletPhaseInv (s acc : GameState) : Prop :=
  (∀ p ∈ acc.centipede_segments, p ∈ s.centipede_segments) ∧
  acc.score + 10 * (acc.centipede_segments.length : Int)
    = s.score + 10 * (s.centipede_segments.length : Int) ∧
  (∀ p ∈ acc.mushrooms, p ∈ s.mushrooms ∨ p ∈ s.centipede_segments) ∧
  (∀ p ∈ acc.bullets, 0 ≤ p.y ∧ ∃ q ∈ s.bullets, p = ⟨q.x, q.y - 1⟩) ∧
  acc.player_pos = s.player_pos ∧
  acc.board = s.board ∧
  acc.direction = s.direction ∧
  acc.game_over = s.game_over ∧
  s.score ≤ acc.score

/-! ### Helper lemmas about the Python-style primitives -/

theorem py_bind_ok {α β : Type} (a : α) (f : α → Py β) : (Except.ok a >>= f : Py β) = f a := rfl

theorem py_bind_err {α β : Type} (e : PyError) (f : α → Py β) :
    (Except.error e >>= f : Py β) = .error e := rfl

theorem gamestate_ext {a b : GameState}
    (h1 : a.board = b.board) (h2 : a.score = b.score) (h3 : a.player_pos = b.player_pos)
    (h4 : a.centipede_segments = b.centipede_segments) (h5 : a.mushrooms = b.mushrooms)
    (h6 : a.bullets = b.bullets) (h7 : a.game_over = b.game_over)
    (h8 : a.direction = b.direction) : a = b := by
  cases a
  cases b
  simp only [GameState.mk.injEq]
  exact ⟨h1, h2, h3, h4, h5, h6, h7, h8⟩

theorem pyIdx_ok {n : Nat} {i : Int} (h0 : 0 ≤ i) (hn : i < (n : Int)) :
    pyIdx n i = .ok i.toNat := by
  unfold pyIdx
  rw [if_pos h0, if_pos hn]

theorem pyGet_ok {α : Type} {l : List α} {i : Int} (h0 : 0 ≤ i)
    (hn : i < (l.length : Int)) :
    ∃ a, pyGet l i = .ok a ∧ l[i.toNat]? = some a := by
  have hlt : i.toNat < l.length := by omega
  cases ha : l[i.toNat]? with
  | none =>
    rw [List.getElem?_eq_none_iff] at ha
    omega
  | some a =>
    refine ⟨a, ?_, rfl⟩
    unfold pyGet
    rw [pyIdx_ok h0 hn, py_bind_ok]
    rw [List.get?_eq_getElem?, ha]

theorem pyGet_cons_zero {α : Type} (a : α) (l : List α) : pyGet (a :: l) 0 = .ok a := by
  unfold pyGet
  rw [pyIdx_ok le_rfl (by exact_mod_cast Nat.succ_pos l.length), py_bind_ok]
  rfl

theorem pySet_ok {α : Type} {l : List α} {i : Int} (a : α) (h0 : 0 ≤ i)
    (hn : i < (l.length : Int)) :
    pySet l i a = .ok (l.set i.toNat a) := by
  unfold pySet
  rw [pyIdx_ok h0 hn, py_bind_ok]

theorem Rect.set {b : List (List String)} {h w : Nat} (hb : Rect b h w)
    {r : List String} (hr : r.length = w) (j : Nat) : Rect (b.set j r) h w := by
  refine ⟨by rw [List.length_set]; exact hb.1, ?_⟩
  intro t ht
  rcases List.mem_or_eq_of_mem_set ht with h1 | h1
  · exact hb.2 t h1
  · rw [h1, hr]

theorem setCell_ok {b : List (List String)} {h w : Nat} {y x : Int} (v : String)
    (hb : Rect b h w) (hy0 : 0 ≤ y) (hyh : y < (h : Int)) (hx0 : 0 ≤ x)
    (hxw : x < (w : Int)) :
    ∃ row b2, b[y.toNat]? = some row ∧ setCell b y x v = .ok b2 ∧ Rect b2 h w ∧
      b2 = b.set y.toNat (row.set x.toNat v) := by
  have hyl : y < (b.length : Int) := by rw [hb.1]; exact hyh
  obtain ⟨row, hrow, hrow2⟩ := pyGet_ok hy0 hyl
  have hrmem : row ∈ b := by
    rw [List.getElem?_eq_some] at hrow2
    obtain ⟨hlt, he⟩ := hrow2
    exact he ▸ List.getElem_mem hlt
  have hrl : row.length = w := hb.2 row hrmem
  have hxl : x < (row.length : Int) := by rw [hrl]; exact hxw
  refine ⟨row, b.set y.toNat (row.set x.toNat v), hrow2, ?_, ?_, rfl⟩
  · unfold setCell
    rw [hrow, py_bind_ok, pySet_ok v hx0 hxl, py_bind_ok, pySet_ok _ hy0 hyl]
  · exact hb.set (by rw [List.length_set, hrl]) y.toNat

/-- Success-with-invariant for `foldlM` folds in the `Py` monad. -/
theorem foldlM_ok_of_inv {α β : Type} (f : β → α → Py β) (P : β → Prop) :
    ∀ (l : List α) (b : β), P b →
      (∀ b2 a, P b2 → a ∈ l → ∃ b3, f b2 a = .ok b3 ∧ P b3) →
      ∃ b4, l.foldlM f b = .ok b4 ∧ P b4 := by
  intro l
  induction l with
  | nil => intro b hb _; exact ⟨b, rfl, hb⟩
  | cons a t ih =>
    intro b hb hstep
    obtain ⟨b3, hfa, hb3⟩ := hstep b a hb (by simp)
    rw [List.foldlM_cons, hfa, py_bind_ok]
    exact ih b3 hb3 (fun b4 a2 hP ha2 => hstep b4 a2 hP (by simp [ha2]))

/-- Invariant preservation for pure `foldl` folds. -/
theorem foldl_inv {α β : Type} (f : β → α → β) (P : β → Prop) :
    ∀ (l : List α) (b : β), P b → (∀ b2 a, P b2 → a ∈ l → P (f b2 a)) →
      P (l.foldl f b) := by
  intro l
  induction l with
  | nil => intro b hb _; exact hb
  | cons a t ih =>
    intro b hb hstep
    rw [List.foldl_cons]
    exact ih (f b a) (hstep b a hb (by simp)) (fun b2 a2 hP ha2 => hstep b2 a2 hP (by simp [ha2]))

/-! ### The bullet phase -/

theorem hit_segment_mem {np : Position} :
    ∀ {l : List Position} {seg : Position} {rem : List Position},
      hit_segment np l = some (seg, rem) →
      seg ∈ l ∧ rem.length + 1 = l.length ∧ (∀ p ∈ rem, p ∈ l) ∧
        np.x = seg.x ∧ np.y = seg.y := by
  intro l
  induction l with
  | nil => intro seg rem h; simp [hit_segment] at h
  | cons a t ih =>
    intro seg rem h
    by_cases hc : np.x = a.x ∧ np.y = a.y
    · rw [hit_segment, if_pos hc] at h
      obtain ⟨h1, h2⟩ := Prod.mk.injEq .. ▸ Option.some.injEq .. ▸ h
      cases h
      exact ⟨by simp, by simp, fun p hp => by simp [hp], hc.1, hc.2⟩
    · rw [hit_segment, if_neg hc] at h
      cases hrec : hit_segment np t with
      | none => rw [hrec] at h; cases h
      | some pr =>
        rw [hrec] at h
        obtain ⟨hit, remaining⟩ := pr
        obtain ⟨hseg, hrem⟩ := Prod.mk.injEq .. ▸ Option.some.injEq .. ▸ h
        obtain ⟨hm, hl, hsub, hx, hy⟩ := ih hrec
        subst hseg
        subst hrem
        refine ⟨by simp [hm], by simp [← hl], ?_, hx, hy⟩
        intro p hp
        rcases List.mem_cons.mp hp with h1 | h1
        · simp [h1]
        · simp [hsub p h1]

theorem hit_segment_of_first {np : Position} :
    ∀ {l : List Position} {i : Nat} {seg : Position},
      l.get? i = some seg → np.x = seg.x → np.y = seg.y →
      (∀ j, j < i → ∀ t, l.get? j = some t → ¬(np.x = t.x ∧ np.y = t.y)) →
      hit_segment np l = some (seg, l.eraseIdx i) := by
  intro l
  induction l with
  | nil => intro i seg h; simp at h
  | cons a t ih =>
    intro i seg hget hx hy hfirst
    cases i with
    | zero =>
      simp at hget
      subst hget
      rw [hit_segment, if_pos ⟨hx, hy⟩]
      rfl
    | succ k =>
      have hna : ¬(np.x = a.x ∧ np.y = a.y) :=
        hfirst 0 (Nat.succ_pos k) a (by simp)
      rw [hit_segment, if_neg hna]
      have hget2 : t.get? k = some seg := by simpa using hget
      have hrec := ih hget2 hx hy
        (fun j hj u hu => hfirst (j + 1) (by omega) u (by simpa using hu))
      rw [hrec]
      rfl

theorem hit_segment_of_no_match {np : Position} :
    ∀ {l : List Position}, (∀ seg ∈ l, ¬(np.x = seg.x ∧ np.y = seg.y)) →
      hit_segment np l = none := by
  intro l
  induction l with
  | nil => intro; rfl
  | cons a t ih =>
    intro hno
    rw [hit_segment, if_neg (hno a (by simp)), ih (fun seg hs => hno seg (by simp [hs]))]

theorem process_bullet_drop (acc : GameState) (bullet : Position)
    (h : bullet.y - 1 < 0) : process_bullet acc bullet = acc := by
  simp only [process_bullet]
  rw [if_neg (by omega)]

theorem process_bullet_hit (acc : GameState) (bullet : Position) (seg : Position)
    (rem : List Position) (h0 : 0 ≤ bullet.y - 1)
    (hhit : hit_segment ⟨bullet.x, bullet.y - 1⟩ acc.centipede_segments = some (seg, rem)) :
    process_bullet acc bullet
      = { acc with score := acc.score + 10,
                   mushrooms := acc.mushrooms ++ [⟨seg.x, seg.y⟩],
                   centipede_segments := rem } := by
  simp only [process_bullet]
  rw [if_pos h0, hhit]

theorem process_bullet_keep (acc : GameState) (bullet : Position) (h0 : 0 ≤ bullet.y - 1)
    (hhit : hit_segment ⟨bullet.x, bullet.y - 1⟩ acc.centipede_segments = none) :
    process_bullet acc bullet
      = { acc with bullets := acc.bullets ++ [(⟨bullet.x, bullet.y - 1⟩ : Position)] } := by
  simp only [process_bullet]
  rw [if_pos h0, hhit]

theorem process_bullet_board (acc : GameState) (b : List (List String)) (bullet : Position) :
    process_bullet { acc with board := b } bullet
      = { process_bullet acc bullet with board := b } := by
  have hsegs : ({ acc with board := b } : GameState).centipede_segments
      = acc.centipede_segments := rfl
  by_cases h0 : (0 : Int) ≤ bullet.y - 1
  · cases hhit : hit_segment ⟨bullet.x, bullet.y - 1⟩ acc.centipede_segments with
    | none =>
      rw [process_bullet_keep { acc with board := b } _ h0 (hsegs ▸ hhit),
          process_bullet_keep acc _ h0 hhit]
    | some pr =>
      obtain ⟨seg, rem⟩ := pr
      rw [process_bullet_hit { acc with board := b } _ seg rem h0 (hsegs ▸ hhit),
          process_bullet_hit acc _ seg rem h0 hhit]
  · rw [process_bullet_drop { acc with board := b } _ (by omega),
        process_bullet_drop acc _ (by omega)]

theorem update_bullets_board (s : GameState) (b : List (List String)) :
    update_bullets { s with board := b } = { update_bullets s with board := b } := by
  unfold update_bullets
  have hcomm : ∀ (l : List Position) (acc : GameState),
      l.foldl process_bullet { acc with board := b }
        = { l.foldl process_bullet acc with board := b } := by
    intro l
    induction l with
    | nil => intro acc; rfl
    | cons a t ih =>
      intro acc
      rw [List.foldl_cons, List.foldl_cons, process_bullet_board, ih]
  exact hcomm s.bullets { s with bullets := [] }

theorem update_bullets_props (s : GameState) : BulletPhaseInv s (update_bullets s) := by
  unfold update_bullets
  refine foldl_inv process_bullet (BulletPhaseInv s) s.bullets { s with bullets := [] }
    ⟨fun p hp => hp, rfl, fun p hp => Or.inl hp, by simp, rfl, rfl, rfl, rfl, le_rfl⟩ ?_
  intro acc bullet hacc hmem
  obtain ⟨hseg, hsc, hmush, hbul, hpl, hbd, hdir, hgo, hmono⟩ := hacc
  by_cases h0 : (0 : Int) ≤ bullet.y - 1
  · cases hhit : hit_segment ⟨bullet.x, bullet.y - 1⟩ acc.centipede_segments with
    | none =>
      rw [process_bullet_keep _ _ h0 hhit]
      refine ⟨hseg, hsc, hmush, ?_, hpl, hbd, hdir, hgo, hmono⟩
      intro p hp
      rcases List.mem_append.mp hp with h1 | h1
      · exact hbul p h1
      · simp at h1
        subst h1
        exact ⟨h0, bullet, hmem, rfl⟩
    | some pr =>
      obtain ⟨seg, rem⟩ := pr
      obtain ⟨hm, hl, hsub, _, _⟩ := hit_segment_mem hhit
      rw [process_bullet_hit _ _ seg rem h0 hhit]
      refine ⟨fun p hp => hseg p (hsub p hp), ?_, ?_, hbul, hpl, hbd, hdir, hgo,
        by show s.score ≤ acc.score + 10; omega⟩
      · show acc.score + 10 + 10 * ((rem.length : Int)) = _
        omega
      · intro p hp
        rcases List.mem_append.mp hp with h1 | h1
        · exact hmush p h1
        · simp at h1
          subst h1
          exact Or.inr (hseg seg hm)
  · rw [process_bullet_drop _ _ (by omega)]
    exact ⟨hseg, hsc, hmush, hbul, hpl, hbd, hdir, hgo, hmono⟩

/-! ### The centipede movement phase -/

theorem move_centipede_fields (w : Int) (t : GameState) :
    (move_centipede w t).score = t.score ∧
    (move_centipede w t).player_pos = t.player_pos ∧
    (move_centipede w t).mushrooms = t.mushrooms ∧
    (move_centipede w t).bullets = t.bullets ∧
    (move_centipede w t).board = t.board ∧
    (move_centipede w t).game_over = t.game_over := by
  unfold move_centipede
  cases hseg : t.centipede_segments with
  | nil => exact ⟨rfl, rfl, rfl, rfl, rfl, rfl⟩
  | cons head rest => exact ⟨rfl, rfl, rfl, rfl, rfl, rfl⟩

theorem move_centipede_nil (w : Int) (t : GameState) (hseg : t.centipede_segments = []) :
    move_centipede w t = t := by
  unfold move_centipede
  rw [hseg]

theorem move_centipede_turn (w : Int) (t : GameState) (head : Position) (rest : List Position)
    (hseg : t.centipede_segments = head :: rest)
    (hnt : (head.x = 0 ∧ t.direction = .LEFT) ∨ (head.x = w - 1 ∧ t.direction = .RIGHT)) :
    (move_centipede w t).centipede_segments
      = (⟨head.x, head.y + 1⟩ : Position).move (if t.direction = .RIGHT then .LEFT else .RIGHT)
          :: ((head :: rest).map (fun p => (⟨p.x, p.y + 1⟩ : Position))).dropLast ∧
    (move_centipede w t).direction = (if t.direction = .RIGHT then .LEFT else .RIGHT) := by
  unfold move_centipede
  rw [hseg]
  dsimp only
  rw [if_pos hnt, if_pos hnt]
  exact ⟨rfl, rfl⟩

theorem move_centipede_no_turn (w : Int) (t : GameState) (head : Position) (rest : List Position)
    (hseg : t.centipede_segments = head :: rest)
    (hnt : ¬((head.x = 0 ∧ t.direction = .LEFT) ∨ (head.x = w - 1 ∧ t.direction = .RIGHT))) :
    (move_centipede w t).centipede_segments = head.move t.direction :: (head :: rest).dropLast ∧
    (move_centipede w t).direction = t.direction := by
  unfold move_centipede
  rw [hseg]
  dsimp only
  rw [if_neg hnt, if_neg hnt]
  exact ⟨rfl, rfl⟩

theorem move_centipede_length (w : Int) (t : GameState) :
    (move_centipede w t).centipede_segments.length = t.centipede_segments.length := by
  cases hseg : t.centipede_segments with
  | nil => rw [move_centipede_nil w t hseg, hseg]
  | cons head rest =>
    by_cases hnt : (head.x = 0 ∧ t.direction = .LEFT) ∨ (head.x = w - 1 ∧ t.direction = .RIGHT)
    · rw [(move_centipede_turn w t head rest hseg hnt).1]
      simp
    · rw [(move_centipede_no_turn w t head rest hseg hnt).1]
      simp

theorem move_centipede_bounds (w h : Int) (t : GameState) (hw : 2 ≤ w)
    (hall : ∀ p ∈ t.centipede_segments, InBounds w h p ∧ p.y < h - 1)
    (hdir : t.direction ≠ .DOWN) :
    (∀ p ∈ (move_centipede w t).centipede_segments, InBounds w h p) ∧
    (move_centipede w t).direction ≠ .DOWN := by
  cases hseg : t.centipede_segments with
  | nil =>
    rw [move_centipede_nil w t hseg]
    exact ⟨fun p hp => ((hall p hp).1), hdir⟩
  | cons head rest =>
    have hhead := hall head (by rw [hseg]; simp)
    by_cases hnt : (head.x = 0 ∧ t.direction = .LEFT) ∨ (head.x = w - 1 ∧ t.direction = .RIGHT)
    · obtain ⟨hs, hd⟩ := move_centipede_turn w t head rest hseg hnt
      constructor
      · intro p hp
        rw [hs] at hp
        rcases List.mem_cons.mp hp with h1 | h1
        · subst h1
          rcases hnt with ⟨hx, hl⟩ | ⟨hx, hr⟩
          · rw [hl, if_neg (by decide : ¬(Direction.LEFT = Direction.RIGHT))]
            simp [InBounds, Position.move, Direction.value] at hhead ⊢
            omega
          · rw [hr, if_pos rfl]
            simp [InBounds, Position.move, Direction.value] at hhead ⊢
            omega
        · have h2 : p ∈ (head :: rest).map (fun q => (⟨q.x, q.y + 1⟩ : Position)) :=
            List.dropLast_subset _ h1
          obtain ⟨q, hq, rfl⟩ := List.mem_map.mp h2
          have h3 := hall q (by rw [hseg]; exact hq)
          simp only [InBounds] at h3 ⊢
          omega
      · rw [hd]
        cases hc : t.direction <;> simp
    · obtain ⟨hs, hd⟩ := move_centipede_no_turn w t head rest hseg hnt
      constructor
      · intro p hp
        rw [hs] at hp
        rcases List.mem_cons.mp hp with h1 | h1
        · subst h1
          cases hc : t.direction with
          | DOWN => exact absurd hc hdir
          | LEFT =>
            rw [hc] at hnt
            simp at hnt
            simp only [InBounds, Position.move, Direction.value] at hhead ⊢
            omega
          | RIGHT =>
            rw [hc] at hnt
            simp at hnt
            simp only [InBounds, Position.move, Direction.value] at hhead ⊢
            omega
        · have h2 := List.dropLast_subset _ h1
          exact (hall p (by rw [hseg]; exact h2)).1
      · rw [hd]
        exact hdir

/-! ### The terminal check -/

theorem check_game_over_fields (hh : Int) (t : GameState) :
    (check_game_over hh t).score = t.score ∧
    (check_game_over hh t).player_pos = t.player_pos ∧
    (check_game_over hh t).mushrooms = t.mushrooms ∧
    (check_game_over hh t).bullets = t.bullets ∧
    (check_game_over hh t).board = t.board ∧
    (check_game_over hh t).direction = t.direction ∧
    (check_game_over hh t).centipede_segments = t.centipede_segments :=
  ⟨rfl, rfl, rfl, rfl, rfl, rfl, rfl⟩

theorem check_game_over_iff (hh : Int) (t : GameState) :
    (check_game_over hh t).game_over = true ↔
      (t.game_over = true ∨ (∃ p ∈ t.centipede_segments, hh - 1 ≤ p.y) ∨
        t.centipede_segments = []) := by
  show (if t.centipede_segments = [] then true
        else if t.centipede_segments.any (fun seg => decide (hh - 1 ≤ seg.y)) then true
        else t.game_over) = true ↔ _
  by_cases he : t.centipede_segments = []
  · rw [if_pos he]
    simp [he]
  · rw [if_neg he]
    by_cases ha : t.centipede_segments.any (fun seg => decide (hh - 1 ≤ seg.y))
    · rw [if_pos ha]
      simp only [List.any_eq_true, decide_eq_true_eq] at ha
      obtain ⟨p, hp, hp2⟩ := ha
      exact ⟨fun _ => Or.inr (Or.inl ⟨p, hp, hp2⟩), fun _ => rfl⟩
    · rw [if_neg ha]
      simp only [List.any_eq_true, decide_eq_true_eq] at ha
      push_neg at ha
      constructor
      · intro hg
        exact Or.inl hg
      · intro hg
        rcases hg with h1 | h1 | h1
        · exact h1
        · obtain ⟨p, hp, hp2⟩ := h1
          exact absurd hp2 (not_le.mpr (ha p hp))
        · exact absurd h1 he

/-! ### Board rebuild and clear -/

theorem stamp_list_ok (v : String) (l : List Position) (w h : Int) (hw : 0 ≤ w) (hh : 0 ≤ h)
    (hl : ∀ p ∈ l, InBounds w h p) (b : List (List String)) (hb : Rect b h.toNat w.toNat) :
    ∃ b2, l.foldlM (fun bb p => setCell bb p.y p.x v) b = .ok b2 ∧ Rect b2 h.toNat w.toNat := by
  refine foldlM_ok_of_inv _ (fun bb => Rect bb h.toNat w.toNat) l b hb ?_
  intro b2 p hP hp
  obtain ⟨hx0, hxw, hy0, hyh⟩ := hl p hp
  obtain ⟨row, b3, _, hset, hrect, _⟩ := setCell_ok v hP hy0 (by omega) hx0 (by omega)
  exact ⟨b3, hset, hrect⟩

theorem stamp_board_ok (s : GameState) (w h : Int) (hw : 0 ≤ w) (hh : 0 ≤ h)
    (hm : ∀ p ∈ s.mushrooms, InBounds w h p) (hbu : ∀ p ∈ s.bullets, InBounds w h p)
    (hsg : ∀ p ∈ s.centipede_segments, InBounds w h p) (hp : InBounds w h s.player_pos)
    (b0 : List (List String)) (hb : Rect b0 h.toNat w.toNat) :
    ∃ b2, stamp_board b0 s = .ok b2 ∧ Rect b2 h.toNat w.toNat := by
  obtain ⟨b1, h1, hb1⟩ := stamp_list_ok _ _ w h hw hh hm b0 hb
  obtain ⟨b2, h2, hb2⟩ := stamp_list_ok _ _ w h hw hh hbu b1 hb1
  obtain ⟨b3, h3, hb3⟩ := stamp_list_ok _ _ w h hw hh hsg b2 hb2
  obtain ⟨hx0, hxw, hy0, hyh⟩ := hp
  obtain ⟨row, b4, _, h4, hb4, _⟩ := setCell_ok _ hb3 hy0 (by omega) hx0 (by omega)
  refine ⟨b4, ?_, hb4⟩
  unfold stamp_board
  rw [h1, py_bind_ok, h2, py_bind_ok, h3, py_bind_ok, h4]

theorem clear_board_ok (b : List (List String)) (hN wN : Nat) (hb : Rect b hN wN) :
    ∃ b2, clear_board hN wN b = .ok b2 ∧ Rect b2 hN wN := by
  unfold clear_board
  refine foldlM_ok_of_inv _ (fun bb => Rect bb hN wN) (List.range hN) b hb ?_
  intro b2 y hP hy
  have hy2 : y < hN := List.mem_range.mp hy
  refine foldlM_ok_of_inv _ (fun bb => Rect bb hN wN) (List.range wN) b2 hP ?_
  intro b3 x hP2 hx
  have hx2 : x < wN := List.mem_range.mp hx
  obtain ⟨row, b4, _, hset, hrect, _⟩ :=
    setCell_ok (b := b3) (y := (y : Int)) (x := (x : Int)) GameEntity.EMPTY.value hP2
      (by omega) (by omega) (by omega) (by omega)
  exact ⟨b4, hset, hrect⟩

/-! ### Decomposing `update_game_state` -/

theorem move_centipede_cons (w : Int) (t : GameState) (head : Position) (rest : List Position)
    (hseg : t.centipede_segments = head :: rest) :
    move_centipede w t
      = { t with
            direction :=
              if (head.x = 0 ∧ t.direction = .LEFT) ∨ (head.x = w - 1 ∧ t.direction = .RIGHT)
              then (if t.direction = .RIGHT then .LEFT else .RIGHT) else t.direction,
            centipede_segments :=
              match (if (head.x = 0 ∧ t.direction = .LEFT) ∨
                        (head.x = w - 1 ∧ t.direction = .RIGHT)
                     then (head :: rest).map (fun p => (⟨p.x, p.y + 1⟩ : Position))
                     else head :: rest) with
              | [] => []
              | h1 :: t1 =>
                h1.move (if (head.x = 0 ∧ t.direction = .LEFT) ∨
                            (head.x = w - 1 ∧ t.direction = .RIGHT)
                         then (if t.direction = .RIGHT then .LEFT else .RIGHT)
                         else t.direction) :: (h1 :: t1).dropLast } := by
  unfold move_centipede
  rw [hseg]

theorem move_centipede_only_segs_dir (w : Int) (t u : GameState)
    (hseg : t.centipede_segments = u.centipede_segments) (hdir : t.direction = u.direction) :
    (move_centipede w t).centipede_segments = (move_centipede w u).centipede_segments ∧
    (move_centipede w t).direction = (move_centipede w u).direction := by
  cases hs : t.centipede_segments with
  | nil =>
    have hs2 : u.centipede_segments = [] := by rw [← hseg, hs]
    rw [move_centipede_nil w t hs, move_centipede_nil w u hs2]
    exact ⟨hseg, hdir⟩
  | cons head rest =>
    have hs2 : u.centipede_segments = head :: rest := by rw [← hseg, hs]
    by_cases hnt : (head.x = 0 ∧ t.direction = .LEFT) ∨ (head.x = w - 1 ∧ t.direction = .RIGHT)
    · have hnt2 : (head.x = 0 ∧ u.direction = .LEFT) ∨ (head.x = w - 1 ∧ u.direction = .RIGHT) := by
        rw [← hdir]
        exact hnt
      obtain ⟨e1, e2⟩ := move_centipede_turn w t head rest hs hnt
      obtain ⟨f1, f2⟩ := move_centipede_turn w u head rest hs2 hnt2
      rw [e1, e2, f1, f2, hdir]
      exact ⟨rfl, rfl⟩
    · have hnt2 : ¬((head.x = 0 ∧ u.direction = .LEFT) ∨
          (head.x = w - 1 ∧ u.direction = .RIGHT)) := by
        rw [← hdir]
        exact hnt
      obtain ⟨e1, e2⟩ := move_centipede_no_turn w t head rest hs hnt
      obtain ⟨f1, f2⟩ := move_centipede_no_turn w u head rest hs2 hnt2
      rw [e1, e2, f1, f2, hdir]
      exact ⟨rfl, rfl⟩

theorem move_centipede_board (w : Int) (t : GameState) (b : List (List String)) :
    move_centipede w { t with board := b } = { move_centipede w t with board := b } := by
  have hA := move_centipede_fields w { t with board := b }
  have hB := move_centipede_fields w t
  have hSD := move_centipede_only_segs_dir w { t with board := b } t rfl rfl
  refine gamestate_ext ?_ ?_ ?_ ?_ ?_ ?_ ?_ ?_
  · rw [hA.2.2.2.2.1]
  · rw [hA.1]
    exact hB.1.symm
  · rw [hA.2.1]
    exact hB.2.1.symm
  · exact hSD.1
  · rw [hA.2.2.1]
    exact hB.2.2.1.symm
  · rw [hA.2.2.2.1]
    exact hB.2.2.2.1.symm
  · rw [hA.2.2.2.2.2]
    exact hB.2.2.2.2.2.symm
  · exact hSD.2

theorem stamp_board_state_board (b0 b : List (List String)) (t : GameState) :
    stamp_board b0 { t with board := b } = stamp_board b0 t := rfl

theorem update_ok_inversion {s s3 : GameState} (hok : update_game_state s = .ok s3) :
    ∃ r0 rows b1 b2, s.board = r0 :: rows ∧
      clear_board s.board.length r0.length s.board = .ok b1 ∧
      stamp_board b1 (move_centipede (r0.length : Int) (update_bullets s)) = .ok b2 ∧
      s3 = check_game_over (s.board.length : Int)
        { move_centipede (r0.length : Int) (update_bullets s) with board := b2 } := by
  unfold update_game_state at hok
  cases hbd : s.board with
  | nil =>
    rw [hbd] at hok
    exact Except.noConfusion hok
  | cons r0 rows =>
    rw [hbd, pyGet_cons_zero, py_bind_ok] at hok
    dsimp only at hok
    cases hclear : clear_board (r0 :: rows).length r0.length (r0 :: rows) with
    | error e =>
      rw [hclear] at hok
      exact Except.noConfusion hok
    | ok b1 =>
      simp only [hclear, py_bind_ok] at hok
      rw [update_bullets_board, move_centipede_board] at hok
      dsimp only at hok
      rw [stamp_board_state_board] at hok
      cases hstamp : stamp_board b1 (move_centipede (r0.length : Int) (update_bullets s)) with
      | error e =>
        rw [hstamp] at hok
        exact Except.noConfusion hok
      | ok b2 =>
        rw [hstamp, py_bind_ok] at hok
        have h3 := Except.ok.inj hok
        exact ⟨r0, rows, b1, b2, rfl, hclear, hstamp, h3.symm⟩

/-! ### The agents -/

theorem move_player_inv {s s2 : GameState} {d : Direction}
    (hok : move_player s d = .ok s2) :
    s2 = s ∨ s2 = { s with player_pos := s.player_pos.move d } := by
  unfold move_player at hok
  dsimp only at hok
  by_cases h1 : (s.player_pos.move d).x < 0
  · rw [if_pos h1] at hok
    exact Or.inl (Except.ok.inj hok).symm
  · rw [if_neg h1] at hok
    cases hg : pyGet s.board 0 with
    | error e =>
      rw [hg] at hok
      exact Except.noConfusion hok
    | ok row0 =>
      simp only [hg, py_bind_ok] at hok
      by_cases h2 : (s.player_pos.move d).x < (row0.length : Int)
      · rw [if_pos h2] at hok
        by_cases h3 : (s.player_pos.move d).y < 0
        · rw [if_pos h3] at hok
          exact Or.inl (Except.ok.inj hok).symm
        · rw [if_neg h3] at hok
          by_cases h4 : (s.player_pos.move d).y < (s.board.length : Int)
          · rw [if_pos h4] at hok
            exact Or.inr (Except.ok.inj hok).symm
          · rw [if_neg h4] at hok
            exact Or.inl (Except.ok.inj hok).symm
      · rw [if_neg h2] at hok
        exact Or.inl (Except.ok.inj hok).symm

theorem move_player_eq (s : GameState) (d : Direction) (r0 : List String)
    (rows : List (List String)) (hbd : s.board = r0 :: rows) :
    move_player s d
      = .ok (if 0 ≤ (s.player_pos.move d).x ∧ (s.player_pos.move d).x < (r0.length : Int)
              ∧ 0 ≤ (s.player_pos.move d).y ∧ (s.player_pos.move d).y < (s.board.length : Int)
             then { s with player_pos := s.player_pos.move d } else s) := by
  unfold move_player
  dsimp only
  by_cases h1 : (s.player_pos.move d).x < 0
  · rw [if_pos h1, if_neg (by omega)]
  · rw [if_neg h1, hbd, pyGet_cons_zero, py_bind_ok]
    by_cases h2 : (s.player_pos.move d).x < (r0.length : Int)
    · rw [if_pos h2]
      by_cases h3 : (s.player_pos.move d).y < 0
      · rw [if_pos h3, if_neg (by omega)]
      · rw [if_neg h3]
        by_cases h4 : (s.player_pos.move d).y < ((r0 :: rows).length : Int)
        · rw [if_pos h4, if_pos (by omega)]
        · rw [if_neg h4, if_neg (by omega)]
    · rw [if_neg h2, if_neg (by omega)]

theorem shooter_spec {strat : String} {s s1 : GameState} {head : Position}
    {rest : List Position} {target : Position}
    (hseg : s.centipede_segments = head :: rest)
    (htar : (if strat = "predictive" then predict_centipede_position s else .ok head)
      = .ok target)
    (hok : shooter_make_decision strat s = .ok s1) :
    ∃ s2, ((s.player_pos.x < target.x ∧ move_player s .RIGHT = .ok s2) ∨
           (target.x < s.player_pos.x ∧ move_player s .LEFT = .ok s2) ∨
           (s.player_pos.x = target.x ∧ s2 = s)) ∧
      s1 = (if |s2.player_pos.x - target.x| ≤ 1 then shoot s2 else s2) := by
  unfold shooter_make_decision at hok
  rw [hseg] at hok
  dsimp only at hok
  by_cases hstrat : strat = "predictive"
  case pos =>
    rw [if_pos hstrat] at hok htar
    simp only [htar, py_bind_ok] at hok
    by_cases h1 : s.player_pos.x < target.x
    · rw [if_pos h1] at hok
      cases hm : move_player s .RIGHT with
      | error e =>
        rw [hm] at hok
        exact Except.noConfusion hok
      | ok s2 =>
        simp only [hm, py_bind_ok] at hok
        refine ⟨s2, Or.inl ⟨h1, rfl⟩, ?_⟩
        by_cases h5 : |s2.player_pos.x - target.x| ≤ 1
        · rw [if_pos h5] at hok
          rw [if_pos h5]
          exact (Except.ok.inj hok).symm
        · rw [if_neg h5] at hok
          rw [if_neg h5]
          exact (Except.ok.inj hok).symm
    · rw [if_neg h1] at hok
      by_cases h2 : target.x < s.player_pos.x
      · rw [if_pos h2] at hok
        cases hm : move_player s .LEFT with
        | error e =>
          rw [hm] at hok
          exact Except.noConfusion hok
        | ok s2 =>
          simp only [hm, py_bind_ok] at hok
          refine ⟨s2, Or.inr (Or.inl ⟨h2, rfl⟩), ?_⟩
          by_cases h5 : |s2.player_pos.x - target.x| ≤ 1
          · rw [if_pos h5] at hok
            rw [if_pos h5]
            exact (Except.ok.inj hok).symm
          · rw [if_neg h5] at hok
            rw [if_neg h5]
            exact (Except.ok.inj hok).symm
      · rw [if_neg h2] at hok
        refine ⟨s, Or.inr (Or.inr ⟨by omega, rfl⟩), ?_⟩
        by_cases h5 : |s.player_pos.x - target.x| ≤ 1
        · rw [if_pos h5] at hok
          rw [if_pos h5]
          exact (Except.ok.inj hok).symm
        · rw [if_neg h5] at hok
          rw [if_neg h5]
          exact (Except.ok.inj hok).symm
  case neg =>
    rw [if_neg hstrat] at hok htar
    have htg : head = target := Except.ok.inj htar
    subst htg
    simp only [py_bind_ok] at hok
    by_cases h1 : s.player_pos.x < head.x
    · rw [if_pos h1] at hok
      cases hm : move_player s .RIGHT with
      | error e =>
        rw [hm] at hok
        exact Except.noConfusion hok
      | ok s2 =>
        simp only [hm, py_bind_ok] at hok
        refine ⟨s2, Or.inl ⟨h1, rfl⟩, ?_⟩
        by_cases h5 : |s2.player_pos.x - head.x| ≤ 1
        · rw [if_pos h5] at hok
          rw [if_pos h5]
          exact (Except.ok.inj hok).symm
        · rw [if_neg h5] at hok
          rw [if_neg h5]
          exact (Except.ok.inj hok).symm
    · rw [if_neg h1] at hok
      by_cases h2 : head.x < s.player_pos.x
      · rw [if_pos h2] at hok
        cases hm : move_player s .LEFT with
        | error e =>
          rw [hm] at hok
          exact Except.noConfusion hok
        | ok s2 =>
          simp only [hm, py_bind_ok] at hok
          refine ⟨s2, Or.inr (Or.inl ⟨h2, rfl⟩), ?_⟩
          by_cases h5 : |s2.player_pos.x - head.x| ≤ 1
          · rw [if_pos h5] at hok
            rw [if_pos h5]
            exact (Except.ok.inj hok).symm
          · rw [if_neg h5] at hok
            rw [if_neg h5]
            exact (Except.ok.inj hok).symm
      · rw [if_neg h2] at hok
        refine ⟨s, Or.inr (Or.inr ⟨by omega, rfl⟩), ?_⟩
        by_cases h5 : |s.player_pos.x - head.x| ≤ 1
        · rw [if_pos h5] at hok
          rw [if_pos h5]
          exact (Except.ok.inj hok).symm
        · rw [if_neg h5] at hok
          rw [if_neg h5]
          exact (Except.ok.inj hok).symm

theorem shooter_fields_core {s s1 s2 : GameState} {target : Position}
    (hmove : (s.player_pos.x < target.x ∧ move_player s .RIGHT = .ok s2) ∨
             (target.x < s.player_pos.x ∧ move_player s .LEFT = .ok s2) ∨
             (s.player_pos.x = target.x ∧ s2 = s))
    (hfin : s1 = (if |s2.player_pos.x - target.x| ≤ 1 then shoot s2 else s2)) :
    s1.score = s.score ∧ s1.centipede_segments = s.centipede_segments ∧
    s1.mushrooms = s.mushrooms ∧ s1.game_over = s.game_over ∧
    s1.direction = s.direction ∧ s1.board = s.board ∧
    s1.player_pos.y = s.player_pos.y := by
  have h2fields : s2.score = s.score ∧ s2.centipede_segments = s.centipede_segments ∧
      s2.mushrooms = s.mushrooms ∧ s2.game_over = s.game_over ∧
      s2.direction = s.direction ∧ s2.board = s.board ∧
      s2.player_pos.y = s.player_pos.y := by
    rcases hmove with ⟨_, hm⟩ | ⟨_, hm⟩ | ⟨_, hm⟩
    · rcases move_player_inv hm with h | h <;> subst h
      · exact ⟨rfl, rfl, rfl, rfl, rfl, rfl, rfl⟩
      · refine ⟨rfl, rfl, rfl, rfl, rfl, rfl, ?_⟩
        show s.player_pos.y + (0 : Int) = s.player_pos.y
        omega
    · rcases move_player_inv hm with h | h <;> subst h
      · exact ⟨rfl, rfl, rfl, rfl, rfl, rfl, rfl⟩
      · refine ⟨rfl, rfl, rfl, rfl, rfl, rfl, ?_⟩
        show s.player_pos.y + (0 : Int) = s.player_pos.y
        omega
    · subst hm
      exact ⟨rfl, rfl, rfl, rfl, rfl, rfl, rfl⟩
  subst hfin
  by_cases h5 : |s2.player_pos.x - target.x| ≤ 1
  · rw [if_pos h5]
    exact h2fields
  · rw [if_neg h5]
    exact h2fields

theorem shooter_fields {strat : String} {s s1 : GameState}
    (hok : shooter_make_decision strat s = .ok s1) :
    s1.score = s.score ∧ s1.centipede_segments = s.centipede_segments ∧
    s1.mushrooms = s.mushrooms ∧ s1.game_over = s.game_over ∧
    s1.direction = s.direction ∧ s1.board = s.board ∧
    s1.player_pos.y = s.player_pos.y := by
  cases hseg : s.centipede_segments with
  | nil =>
    unfold shooter_make_decision at hok
    rw [hseg] at hok
    have h := Except.ok.inj hok
    subst h
    exact ⟨rfl, hseg, rfl, rfl, rfl, rfl, rfl⟩
  | cons head rest =>
    by_cases hstrat : strat = "predictive"
    case pos =>
      cases htar0 : predict_centipede_position s with
      | error e =>
        unfold shooter_make_decision at hok
        rw [hseg] at hok
        dsimp only at hok
        rw [if_pos hstrat] at hok
        rw [htar0] at hok
        exact Except.noConfusion hok
      | ok target =>
        have htar : (if strat = "predictive" then predict_centipede_position s
            else .ok head) = .ok target := by
          rw [if_pos hstrat]
          exact htar0
        obtain ⟨s2, hmove, hfin⟩ := shooter_spec hseg htar hok
        have hc := shooter_fields_core hmove hfin
        exact ⟨hc.1, hc.2.1.trans hseg, hc.2.2⟩
    case neg =>
      have htar : (if strat = "predictive" then predict_centipede_position s
          else .ok head) = .ok head := by
        rw [if_neg hstrat]
      obtain ⟨s2, hmove, hfin⟩ := shooter_spec hseg htar hok
      have hc := shooter_fields_core hmove hfin
      exact ⟨hc.1, hc.2.1.trans hseg, hc.2.2⟩

theorem centipede_decide_fields (strat : String) (cd : Int) (rand : ℚ) (s : GameState) :
    ((centipede_make_decision strat cd rand s).1).score = s.score ∧
    ((centipede_make_decision strat cd rand s).1).player_pos = s.player_pos ∧
    ((centipede_make_decision strat cd rand s).1).centipede_segments = s.centipede_segments ∧
    ((centipede_make_decision strat cd rand s).1).mushrooms = s.mushrooms ∧
    ((centipede_make_decision strat cd rand s).1).bullets = s.bullets ∧
    ((centipede_make_decision strat cd rand s).1).game_over = s.game_over ∧
    ((centipede_make_decision strat cd rand s).1).board = s.board := by
  unfold centipede_make_decision
  cases hseg : s.centipede_segments with
  | nil => exact ⟨rfl, rfl, hseg, rfl, rfl, rfl, rfl⟩
  | cons head rest =>
    dsimp only
    split <;> split <;> exact ⟨rfl, rfl, rfl, rfl, rfl, rfl, rfl⟩

/-! ### Assembled facts about one update -/

theorem update_parts {s s3 : GameState} (hok : update_game_state s = .ok s3) :
    ∃ r0 rows, s.board = r0 :: rows ∧
      s3.score = (update_bullets s).score ∧
      s3.mushrooms = (update_bullets s).mushrooms ∧
      s3.bullets = (update_bullets s).bullets ∧
      s3.player_pos = s.player_pos ∧
      s3.centipede_segments
        = (move_centipede (r0.length : Int) (update_bullets s)).centipede_segments ∧
      s3.direction = (move_centipede (r0.length : Int) (update_bullets s)).direction ∧
      (s3.game_over = true ↔
        (s.game_over = true ∨
         (∃ p ∈ s3.centipede_segments, (s.board.length : Int) - 1 ≤ p.y) ∨
         s3.centipede_segments = [])) := by
  obtain ⟨r0, rows, b1, b2, hbd, hclear, hstamp, hs3⟩ := update_ok_inversion hok
  have hmc := move_centipede_fields (r0.length : Int) (update_bullets s)
  have hub := update_bullets_props s
  have hsc : s3.score = (update_bullets s).score := by
    rw [hs3]
    exact ((check_game_over_fields _ _).1).trans hmc.1
  have hmush : s3.mushrooms = (update_bullets s).mushrooms := by
    rw [hs3]
    exact ((check_game_over_fields _ _).2.2.1).trans hmc.2.2.1
  have hbul : s3.bullets = (update_bullets s).bullets := by
    rw [hs3]
    exact ((check_game_over_fields _ _).2.2.2.1).trans hmc.2.2.2.1
  have hpl : s3.player_pos = s.player_pos := by
    rw [hs3]
    exact ((check_game_over_fields _ _).2.1).trans (hmc.2.1.trans hub.2.2.2.2.1)
  have hseg3 : s3.centipede_segments
      = (move_centipede (r0.length : Int) (update_bullets s)).centipede_segments := by
    rw [hs3]
    exact (check_game_over_fields _ _).2.2.2.2.2.2
  have hdir3 : s3.direction
      = (move_centipede (r0.length : Int) (update_bullets s)).direction := by
    rw [hs3]
    exact (check_game_over_fields _ _).2.2.2.2.2.1
  refine ⟨r0, rows, hbd, hsc, hmush, hbul, hpl, hseg3, hdir3, ?_⟩
  have heq : ({ move_centipede (r0.length : Int) (update_bullets s) with board := b2 }
      : GameState).game_over = s.game_over :=
    (hmc.2.2.2.2.2).trans hub.2.2.2.2.2.2.2.1
  rw [hs3, check_game_over_iff, (check_game_over_fields _ _).2.2.2.2.2.2, heq]

theorem update_score_facts {s s3 : GameState} (hok : update_game_state s = .ok s3) :
    s3.score = s.score
      + 10 * ((s.centipede_segments.length : Int) - (s3.centipede_segments.length : Int)) ∧
    s3.centipede_segments.length ≤ s.centipede_segments.length ∧
    s.score ≤ s3.score := by
  obtain ⟨r0, rows, hbd, hsc, hmush, hbul, hpl, hseg3, hdir3, hgo⟩ := update_parts hok
  have hub := update_bullets_props s
  have hlen := move_centipede_length (r0.length : Int) (update_bullets s)
  have hlen3 : s3.centipede_segments.length = (update_bullets s).centipede_segments.length := by
    rw [hseg3, hlen]
  have hcons := hub.2.1
  have hmono := hub.2.2.2.2.2.2.2.2
  refine ⟨?_, by omega, by omega⟩
  rw [hsc, hlen3]
  omega

/-- C6: across any sequence of ticks the score never decreases, and it changes
only when centipede segments are destroyed by bullets during
`update_game_state`: the score after an update minus the score before equals
ten times the number of segments destroyed in that update, while both agents'
decision functions leave the score unchanged. -/
theorem C6_score_accounting (sstrat cstrat : String) (cd : Int) (rand : ℚ) (s : GameState) :
    (∀ s3, update_game_state s = .ok s3 →
      s3.score = s.score
        + 10 * ((s.centipede_segments.length : Int) - (s3.centipede_segments.length : Int)) ∧
      s3.centipede_segments.length ≤ s.centipede_segments.length ∧
      s.score ≤ s3.score) ∧
    (∀ s1, shooter_make_decision sstrat s = .ok s1 → s1.score = s.score) ∧
    ((centipede_make_decision cstrat cd rand s).1).score = s.score ∧
    (∀ s4 cd4, tick sstrat cstrat rand cd s = .ok (s4, cd4) → s.score ≤ s4.score) := by
  refine ⟨fun s3 hok => update_score_facts hok,
    fun s1 h => (shooter_fields h).1,
    (centipede_decide_fields cstrat cd rand s).1, ?_⟩
  intro s4 cd4 htk
  unfold tick at htk
  cases hsh : shooter_make_decision sstrat s with
  | error e =>
    rw [hsh] at htk
    exact Except.noConfusion htk
  | ok s1 =>
    simp only [hsh, py_bind_ok] at htk
    cases hup : update_game_state ((centipede_make_decision cstrat cd rand s1).1) with
    | error e =>
      rw [hup] at htk
      exact Except.noConfusion htk
    | ok s5 =>
      simp only [hup, py_bind_ok] at htk
      have h45 : s4 = s5 := congrArg Prod.fst (Except.ok.inj htk).symm
      subst h45
      have e1 := (shooter_fields hsh).1
      have e2 := (centipede_decide_fields cstrat cd rand s1).1
      have e3 := (update_score_facts hup).2.2
      rw [e2, e1] at e3
      exact e3

/-- C4: after an update that starts with the game not over, `game_over` is
true exactly when some segment's y has reached the bottom row or no segment
remains (so it turns true in the very update that removes the last segment);
and neither `update_game_state` nor either agent's decision ever resets a
true `game_over` back to false. -/
theorem C4_game_over (sstrat cstrat : String) (cd : Int) (rand : ℚ) (s : GameState) :
    (∀ s3, s.game_over = false → update_game_state s = .ok s3 →
      (s3.game_over = true ↔
        ((∃ p ∈ s3.centipede_segments, (s.board.length : Int) - 1 ≤ p.y) ∨
         s3.centipede_segments = []))) ∧
    (∀ s3, update_game_state s = .ok s3 → s.game_over = true → s3.game_over = true) ∧
    (∀ s1, shooter_make_decision sstrat s = .ok s1 → s1.game_over = s.game_over) ∧
    ((centipede_make_decision cstrat cd rand s).1).game_over = s.game_over := by
  refine ⟨?_, ?_, fun s1 h => (shooter_fields h).2.2.2.1,
    (centipede_decide_fields cstrat cd rand s).2.2.2.2.2.1⟩
  · intro s3 hgo hok
    obtain ⟨r0, rows, hbd, hsc, hmush, hbul, hpl, hseg3, hdir3, hiff⟩ := update_parts hok
    rw [hiff, hgo]
    simp
  · intro s3 hok hgo
    obtain ⟨r0, rows, hbd, hsc, hmush, hbul, hpl, hseg3, hdir3, hiff⟩ := update_parts hok
    rw [hiff]
    exact Or.inl hgo

theorem cons_dropLast_get? {α : Type} (a : α) (l : List α) (i : Nat) (h1 : 1 ≤ i)
    (h2 : i < l.length) : (a :: l.dropLast).get? i = l.get? (i - 1) := by
  obtain ⟨k, rfl⟩ : ∃ k, i = k + 1 := ⟨i - 1, by omega⟩
  rw [List.get?_eq_getElem?, List.get?_eq_getElem?, List.getElem?_cons_succ,
      List.dropLast_eq_take, List.getElem?_take, if_pos (by omega)]
  rfl

/-- C2: in the centipede step of `update_game_state` (acting on the segment
sequence left by the bullet phase), an edge hit flips the direction and
shifts every segment one row down, then the head advances one cell in the
(possibly flipped) direction while each trailing segment i>0 takes the
position segment i-1 held in the pre-move sequence; in particular a head at
x = 0 heading LEFT yields direction RIGHT, every y raised by one, and the
head additionally shifted right by one. -/
theorem C2_centipede_move (s s3 : GameState) (r0 : List String) (rows : List (List String))
    (head : Position) (rest : List Position)
    (hbd : s.board = r0 :: rows)
    (hseg : (update_bullets s).centipede_segments = head :: rest)
    (hok : update_game_state s = .ok s3) :
    (((head.x = 0 ∧ s.direction = .LEFT) ∨
        (head.x = (r0.length : Int) - 1 ∧ s.direction = .RIGHT)) →
      s3.direction = (if s.direction = .RIGHT then .LEFT else .RIGHT) ∧
      s3.centipede_segments.get? 0
        = some ((⟨head.x, head.y + 1⟩ : Position).move
            (if s.direction = .RIGHT then .LEFT else .RIGHT)) ∧
      (∀ i : Nat, 1 ≤ i → i < (head :: rest).length →
        s3.centipede_segments.get? i
          = ((head :: rest).map (fun p => (⟨p.x, p.y + 1⟩ : Position))).get? (i - 1))) ∧
    (¬((head.x = 0 ∧ s.direction = .LEFT) ∨
        (head.x = (r0.length : Int) - 1 ∧ s.direction = .RIGHT)) →
      s3.direction = s.direction ∧
      s3.centipede_segments.get? 0 = some (head.move s.direction) ∧
      (∀ i : Nat, 1 ≤ i → i < (head :: rest).length →
        s3.centipede_segments.get? i = (head :: rest).get? (i - 1))) ∧
    s3.centipede_segments.length = (head :: rest).length ∧
    ((head.x = 0 ∧ s.direction = .LEFT) →
      s3.direction = .RIGHT ∧
      s3.centipede_segments.get? 0 = some ⟨head.x + 1, head.y + 1⟩ ∧
      (∀ i : Nat, 1 ≤ i → i < (head :: rest).length →
        s3.centipede_segments.get? i
          = ((head :: rest).map (fun p => (⟨p.x, p.y + 1⟩ : Position))).get? (i - 1))) := by
  obtain ⟨r02, rows2, hbd2, hsc, hmush, hbul, hpl, hseg3, hdir3, hiff⟩ := update_parts hok
  have hbb := hbd.symm.trans hbd2
  injection hbb with hr hrows
  subst hr
  have hud : (update_bullets s).direction = s.direction :=
    (update_bullets_props s).2.2.2.2.2.2.1
  have hturn : (((head.x = 0 ∧ s.direction = .LEFT) ∨
      (head.x = (r0.length : Int) - 1 ∧ s.direction = .RIGHT)) →
      s3.direction = (if s.direction = .RIGHT then .LEFT else .RIGHT) ∧
      s3.centipede_segments.get? 0
        = some ((⟨head.x, head.y + 1⟩ : Position).move
            (if s.direction = .RIGHT then .LEFT else .RIGHT)) ∧
      (∀ i : Nat, 1 ≤ i → i < (head :: rest).length →
        s3.centipede_segments.get? i
          = ((head :: rest).map (fun p => (⟨p.x, p.y + 1⟩ : Position))).get? (i - 1))) := by
    intro hedge
    have hnt : (head.x = 0 ∧ (update_bullets s).direction = .LEFT) ∨
        (head.x = (r0.length : Int) - 1 ∧ (update_bullets s).direction = .RIGHT) := by
      rw [hud]
      exact hedge
    obtain ⟨e1, e2⟩ := move_centipede_turn (r0.length : Int) (update_bullets s) head rest hseg hnt
    rw [hud] at e1 e2
    refine ⟨hdir3.trans e2, ?_, ?_⟩
    · rw [hseg3, e1]
      rfl
    · intro i h1 h2
      rw [hseg3, e1, List.map_cons]
      have := cons_dropLast_get?
        ((⟨head.x, head.y + 1⟩ : Position).move (if s.direction = .RIGHT then .LEFT else .RIGHT))
        ((⟨head.x, head.y + 1⟩ : Position) :: rest.map (fun p => (⟨p.x, p.y + 1⟩ : Position)))
        i h1 (by simpa using h2)
      rw [this]
  refine ⟨hturn, ?_, ?_, ?_⟩
  · intro hedge
    have hnt : ¬((head.x = 0 ∧ (update_bullets s).direction = .LEFT) ∨
        (head.x = (r0.length : Int) - 1 ∧ (update_bullets s).direction = .RIGHT)) := by
      rw [hud]
      exact hedge
    obtain ⟨e1, e2⟩ := move_centipede_no_turn (r0.length : Int) (update_bullets s) head rest hseg hnt
    rw [hud] at e1 e2
    refine ⟨hdir3.trans e2, ?_, ?_⟩
    · rw [hseg3, e1]
      rfl
    · intro i h1 h2
      rw [hseg3, e1]
      exact cons_dropLast_get? (head.move s.direction) (head :: rest) i h1 h2
  · rw [hseg3, move_centipede_length, hseg]
  · intro hlft
    obtain ⟨d1, d2, d3⟩ := hturn (Or.inl hlft)
    rw [hlft.2] at d1 d2
    refine ⟨by rw [d1]; rfl, ?_, ?_⟩
    · rw [d2]
      have : ((⟨head.x, head.y + 1⟩ : Position).move
          (if Direction.LEFT = Direction.RIGHT then Direction.LEFT else Direction.RIGHT))
          = (⟨head.x + 1, head.y + 1⟩ : Position) := by
        simp [Position.move, Direction.value]
      rw [this]
    · exact d3

/-- C3: in the bullet phase each bullet moves to (x, y-1); a bullet leaving
the top is dropped with no other effect; otherwise the first segment of the
sequence at the bullet's new position (and only that one) is destroyed:
score +10, a mushroom appended at its position, the segment deleted, the
bullet consumed; with no match the moved bullet is kept.  Bullets are
processed oldest-first, the resulting score, mushrooms and bullets are
exactly those `update_game_state` reports, and a bullet at (5,3) meeting a
first-match segment at (5,2) yields score +10, a mushroom at (5,2), that
segment removed and the bullet gone. -/
theorem C3_bullet_step (s : GameState) :
    (∀ (acc : GameState) (b : Position), b.y - 1 < 0 → process_bullet acc b = acc) ∧
    (∀ (acc : GameState) (b : Position) (i : Nat) (seg : Position), 0 ≤ b.y - 1 →
      acc.centipede_segments.get? i = some seg → seg.x = b.x → seg.y = b.y - 1 →
      (∀ j, j < i → ∀ t, acc.centipede_segments.get? j = some t →
        ¬(t.x = b.x ∧ t.y = b.y - 1)) →
      process_bullet acc b
        = { acc with score := acc.score + 10,
                     mushrooms := acc.mushrooms ++ [⟨seg.x, seg.y⟩],
                     centipede_segments := acc.centipede_segments.eraseIdx i }) ∧
    (∀ (acc : GameState) (b : Position), 0 ≤ b.y - 1 →
      (∀ t ∈ acc.centipede_segments, ¬(t.x = b.x ∧ t.y = b.y - 1)) →
      process_bullet acc b
        = { acc with bullets := acc.bullets ++ [(⟨b.x, b.y - 1⟩ : Position)] }) ∧
    (∀ (b : Position) (bs : List Position), s.bullets = b :: bs →
      update_bullets s
        = List.foldl process_bullet (process_bullet { s with bullets := [] } b) bs) ∧
    (∀ s3, update_game_state s = .ok s3 →
      s3.score = (update_bullets s).score ∧
      s3.mushrooms = (update_bullets s).mushrooms ∧
      s3.bullets = (update_bullets s).bullets) ∧
    (∀ s3 (i : Nat), s.bullets = [⟨5, 3⟩] →
      s.centipede_segments.get? i = some ⟨5, 2⟩ →
      (∀ j, j < i → s.centipede_segments.get? j ≠ some ⟨5, 2⟩) →
      update_game_state s = .ok s3 →
      s3.score = s.score + 10 ∧ s3.mushrooms = s.mushrooms ++ [⟨5, 2⟩] ∧
      s3.bullets = [] ∧
      (update_bullets s).centipede_segments = s.centipede_segments.eraseIdx i) := by
  have hfirstmatch : ∀ (acc : GameState) (b : Position) (i : Nat) (seg : Position),
      0 ≤ b.y - 1 →
      acc.centipede_segments.get? i = some seg → seg.x = b.x → seg.y = b.y - 1 →
      (∀ j, j < i → ∀ t, acc.centipede_segments.get? j = some t →
        ¬(t.x = b.x ∧ t.y = b.y - 1)) →
      process_bullet acc b
        = { acc with score := acc.score + 10,
                     mushrooms := acc.mushrooms ++ [⟨seg.x, seg.y⟩],
                     centipede_segments := acc.centipede_segments.eraseIdx i } := by
    intro acc b i seg h0 hget hx hy hfirst
    have hhit : hit_segment ⟨b.x, b.y - 1⟩ acc.centipede_segments
        = some (seg, acc.centipede_segments.eraseIdx i) :=
      hit_segment_of_first hget hx.symm hy.symm
        (fun j hj t ht hc => hfirst j hj t ht ⟨hc.1.symm, hc.2.symm⟩)
    exact process_bullet_hit acc b seg _ h0 hhit
  refine ⟨fun acc b h => process_bullet_drop acc b h, hfirstmatch, ?_, ?_, ?_, ?_⟩
  · intro acc b h0 hno
    exact process_bullet_keep acc b h0
      (hit_segment_of_no_match (fun t ht hc => hno t ht ⟨hc.1.symm, hc.2.symm⟩))
  · intro b bs hb
    unfold update_bullets
    rw [hb, List.foldl_cons]
  · intro s3 hok
    obtain ⟨r0, rows, hbd, hsc, hmush, hbul, _⟩ := update_parts hok
    exact ⟨hsc, hmush, hbul⟩
  · intro s3 i hbl hget hfirst hok
    obtain ⟨r0, rows, hbd, hsc, hmush, hbul, _⟩ := update_parts hok
    have hu : update_bullets s = process_bullet { s with bullets := [] } ⟨5, 3⟩ := by
      unfold update_bullets
      rw [hbl, List.foldl_cons, List.foldl_nil]
    have hget2 : ({ s with bullets := [] } : GameState).centipede_segments.get? i
        = some ⟨5, 2⟩ := hget
    have hpb := hfirstmatch { s with bullets := [] } ⟨5, 3⟩ i ⟨5, 2⟩ (by decide) hget2
      (by decide) (by decide) ?first
    case first =>
      intro j hj t ht hc
      refine hfirst j hj ?_
      have ht2 : t = (⟨5, 2⟩ : Position) := by
        cases t
        simp only [Position.mk.injEq]
        obtain ⟨h1, h2⟩ := hc
        constructor
        · exact h1.trans (by decide)
        · exact h2.trans (by decide)
      rw [← ht2]
      exact ht
    rw [hu] at hsc hmush hbul ⊢
    rw [hpb] at hsc hmush hbul ⊢
    exact ⟨hsc, hmush, by rw [hbul], rfl⟩

/-- C7: whenever segments remain, the shooter's decision moves the player one
cell toward the target's x (LEFT if the player is right of it, RIGHT if left
of it, nothing if aligned, the move silently ignored when it would leave the
board), then appends a bullet at (player.x, player.y - 1) exactly when the
(moved) player is within one column of the target; no other state field
changes. -/
theorem C7_shooter_decision (strat : String) (s s1 : GameState) (head : Position)
    (rest : List Position) (target : Position) (r0 : List String)
    (rows : List (List String))
    (hbd : s.board = r0 :: rows)
    (hseg : s.centipede_segments = head :: rest)
    (htar : (if strat = "predictive" then predict_centipede_position s else .ok head)
      = .ok target)
    (hok : shooter_make_decision strat s = .ok s1) :
    (s.player_pos.x < target.x →
      s1.player_pos
        = (if 0 ≤ s.player_pos.x + 1 ∧ s.player_pos.x + 1 < (r0.length : Int)
              ∧ 0 ≤ s.player_pos.y ∧ s.player_pos.y < (s.board.length : Int)
           then (⟨s.player_pos.x + 1, s.player_pos.y⟩ : Position) else s.player_pos)) ∧
    (target.x < s.player_pos.x →
      s1.player_pos
        = (if 0 ≤ s.player_pos.x - 1 ∧ s.player_pos.x - 1 < (r0.length : Int)
              ∧ 0 ≤ s.player_pos.y ∧ s.player_pos.y < (s.board.length : Int)
           then (⟨s.player_pos.x - 1, s.player_pos.y⟩ : Position) else s.player_pos)) ∧
    (s.player_pos.x = target.x → s1.player_pos = s.player_pos) ∧
    s1.bullets = s.bullets ++ (if |s1.player_pos.x - target.x| ≤ 1
        then [(⟨s1.player_pos.x, s1.player_pos.y - 1⟩ : Position)] else []) ∧
    s1.score = s.score ∧ s1.centipede_segments = s.centipede_segments ∧
    s1.mushrooms = s.mushrooms ∧ s1.game_over = s.game_over ∧
    s1.direction = s.direction ∧ s1.board = s.board := by
  obtain ⟨s2, hmove, hfin⟩ := shooter_spec hseg htar hok
  have hcore := shooter_fields_core hmove hfin
  have hs2bul : s2.bullets = s.bullets := by
    rcases hmove with ⟨_, hm⟩ | ⟨_, hm⟩ | ⟨_, hm⟩
    · rcases move_player_inv hm with h | h <;> (subst h; rfl)
    · rcases move_player_inv hm with h | h <;> (subst h; rfl)
    · subst hm
      rfl
  have hplayer1 : s1.player_pos = s2.player_pos := by
    rw [hfin]
    by_cases h5 : |s2.player_pos.x - target.x| ≤ 1
    · rw [if_pos h5]
      rfl
    · rw [if_neg h5]
  have hmain : ∀ d : Direction, move_player s d = .ok s2 →
      s2.player_pos
        = (if 0 ≤ (s.player_pos.move d).x ∧ (s.player_pos.move d).x < (r0.length : Int)
              ∧ 0 ≤ (s.player_pos.move d).y ∧ (s.player_pos.move d).y < (s.board.length : Int)
           then s.player_pos.move d else s.player_pos) := by
    intro d hm
    rw [move_player_eq s d r0 rows hbd] at hm
    have h2 := (Except.ok.inj hm).symm
    by_cases hc : 0 ≤ (s.player_pos.move d).x ∧ (s.player_pos.move d).x < (r0.length : Int)
        ∧ 0 ≤ (s.player_pos.move d).y ∧ (s.player_pos.move d).y < (s.board.length : Int)
    · rw [if_pos hc] at h2
      rw [if_pos hc, h2]
    · rw [if_neg hc] at h2
      rw [if_neg hc, h2]
  refine ⟨?_, ?_, ?_, ?_, hcore.1, hcore.2.1, hcore.2.2.1, hcore.2.2.2.1,
    hcore.2.2.2.2.1, hcore.2.2.2.2.2.1⟩
  · intro h
    have hm : move_player s .RIGHT = .ok s2 := by
      rcases hmove with ⟨_, hm⟩ | ⟨hlt, _⟩ | ⟨heq, _⟩
      · exact hm
      · omega
      · omega
    have hmv : s.player_pos.move .RIGHT = (⟨s.player_pos.x + 1, s.player_pos.y⟩ : Position) := by
      simp [Position.move, Direction.value]
    have := hmain .RIGHT hm
    rw [hmv] at this
    rw [hplayer1, this]
  · intro h
    have hm : move_player s .LEFT = .ok s2 := by
      rcases hmove with ⟨hlt, _⟩ | ⟨_, hm⟩ | ⟨heq, _⟩
      · omega
      · exact hm
      · omega
    have hmv : s.player_pos.move .LEFT = (⟨s.player_pos.x - 1, s.player_pos.y⟩ : Position) := by
      simp [Position.move, Direction.value]
      omega
    have := hmain .LEFT hm
    rw [hmv] at this
    rw [hplayer1, this]
  · intro h
    have hs2 : s2 = s := by
      rcases hmove with ⟨hlt, _⟩ | ⟨hlt, _⟩ | ⟨_, hm⟩
      · omega
      · omega
      · exact hm
    rw [hplayer1, hs2]
  · rw [hplayer1]
    by_cases h5 : |s2.player_pos.x - target.x| ≤ 1
    · have h1b : s1.bullets = s2.bullets ++ [(⟨s2.player_pos.x, s2.player_pos.y - 1⟩ : Position)] := by
        rw [hfin, if_pos h5]
        rfl
      rw [if_pos h5, h1b, hs2bul]
    · have h1b : s1.bullets = s2.bullets := by
        rw [hfin, if_neg h5]
      rw [if_neg h5, h1b, hs2bul, List.append_nil]

/-! ### C8: the centipede agent's cooldown -/

theorem threat_fold_blocked (head : Position) (flip : Direction) :
    ∀ (l : List Position) (dc : Direction × Int), 0 < dc.2 →
      l.foldl (fun dc bullet =>
        if |bullet.x - head.x| ≤ 1 ∧ bullet.y < head.y then
          (if dc.2 ≤ 0 then (flip, 3) else dc)
        else dc) dc = dc := by
  intro l
  induction l with
  | nil =>
    intro dc h
    rfl
  | cons b t ih =>
    intro dc h
    rw [List.foldl_cons]
    have hstep : (if |b.x - head.x| ≤ 1 ∧ b.y < head.y then
        (if dc.2 ≤ 0 then (flip, 3) else dc) else dc) = dc := by
      by_cases hc : |b.x - head.x| ≤ 1 ∧ b.y < head.y
      · rw [if_pos hc, if_neg (by omega)]
      · rw [if_neg hc]
    rw [hstep]
    exact ih dc h

theorem threat_fold_fires (head : Position) (flip : Direction) :
    ∀ (l : List Position) (dc : Direction × Int), dc.2 ≤ 0 →
      (∃ b ∈ l, |b.x - head.x| ≤ 1 ∧ b.y < head.y) →
      l.foldl (fun dc bullet =>
        if |bullet.x - head.x| ≤ 1 ∧ bullet.y < head.y then
          (if dc.2 ≤ 0 then (flip, 3) else dc)
        else dc) dc = (flip, 3) := by
  intro l
  induction l with
  | nil =>
    intro dc h hex
    simp at hex
  | cons b t ih =>
    intro dc h hex
    rw [List.foldl_cons]
    by_cases hc : |b.x - head.x| ≤ 1 ∧ b.y < head.y
    · rw [if_pos hc, if_pos h]
      exact threat_fold_blocked head flip t (flip, 3) (by show (0:Int) < 3; decide)
    · rw [if_neg hc]
      refine ih dc h ?_
      rcases hex with ⟨b2, hb2, hcond⟩
      rcases List.mem_cons.mp hb2 with h1 | h1
      · subst h1
        exact absurd hcond hc
      · exact ⟨b2, h1, hcond⟩

/-- C8 counterexample: the claim that after a threat-triggered reversal no
further reversal (threat or random evasion) occurs during the following
three ticks is false: with the cooldown decremented in the same call that
set it to 3, a random evasion can fire again at the second following tick. -/
theorem c8_counterexample :
    ¬(∀ (strat : String) (cd : Int) (rand rand1 rand2 rand3 : ℚ)
        (s s1 s2 s3 : GameState) (head : Position) (rest : List Position),
        s.centipede_segments = head :: rest → cd ≤ 0 →
        (∃ b ∈ s.bullets, |b.x - head.x| ≤ 1 ∧ b.y < head.y) →
        (((centipede_make_decision strat
            (centipede_make_decision strat cd rand s).2 rand1 s1).1).direction
            = s1.direction ∧
         ((centipede_make_decision strat
            (centipede_make_decision strat
              (centipede_make_decision strat cd rand s).2 rand1 s1).2 rand2 s2).1).direction
            = s2.direction ∧
         ((centipede_make_decision strat
            (centipede_make_decision strat
              (centipede_make_decision strat
                (centipede_make_decision strat cd rand s).2 rand1 s1).2 rand2 s2).2
            rand3 s3).1).direction
            = s3.direction)) := by
  intro hall
  have e1 : centipede_make_decision "evasive" 0 2 c8sA
      = ({ c8sA with direction := .LEFT }, 2) := by
    unfold centipede_make_decision c8sA
    dsimp only
    rw [threat_fold_fires ⟨5, 5⟩ _ _ _ (by decide) ⟨⟨5, 0⟩, by decide, by decide⟩]
    rw [if_neg (fun hcc => absurd hcc.2.2 (by show ¬ max (0:Int) (3 - 1) ≤ 0; decide))]
    rfl
  have e2 : centipede_make_decision "evasive" 2 2 c8sB
      = ({ c8sB with direction := .RIGHT }, 1) := by
    unfold centipede_make_decision c8sB
    dsimp only
    rw [if_neg (fun hcc => absurd hcc.2.1 (by norm_num))]
    rfl
  have e3 : centipede_make_decision "evasive" 1 0 c8sB
      = ({ c8sB with direction := .LEFT }, 3) := by
    unfold centipede_make_decision c8sB
    dsimp only
    rw [if_pos ⟨rfl, by norm_num, by show max (0:Int) (1 - 1) ≤ 0; decide⟩]
    rfl
  have h := hall "evasive" 0 2 2 0 2 c8sA c8sB c8sB c8sB ⟨5, 5⟩ []
    rfl (by decide) (by decide)
  have h21 := h.2.1
  rw [e1] at h21
  dsimp only at h21
  rw [e2] at h21
  dsimp only at h21
  rw [e3] at h21
  exact absurd h21 (by decide)

/-- C8 (amended): a threat-triggered reversal flips the direction and leaves
the stored cooldown at 2 (it is set to 3 but decremented within the same
call); the cooldown decays by one per tick floored at zero; no reversal of
either kind can occur on the following tick, and on the second following
tick the threat response is still blocked — a direction change there can
only come from the random evasion roll. -/
theorem C8_cooldown_amended (strat : String) (cd : Int) (rand : ℚ) (s : GameState)
    (head : Position) (rest : List Position)
    (hseg : s.centipede_segments = head :: rest) (hcd : cd ≤ 0)
    (hthreat : ∃ b ∈ s.bullets, |b.x - head.x| ≤ 1 ∧ b.y < head.y) :
    ((centipede_make_decision strat cd rand s).1).direction
      = (if s.direction = .RIGHT then .LEFT else .RIGHT) ∧
    (centipede_make_decision strat cd rand s).2 = 2 ∧
    (∀ (s1 : GameState) (rand1 : ℚ), s1.centipede_segments ≠ [] →
      ((centipede_make_decision strat 2 rand1 s1).1).direction = s1.direction ∧
      (centipede_make_decision strat 2 rand1 s1).2 = 1) ∧
    (∀ (s2 : GameState) (rand2 : ℚ),
      ((centipede_make_decision strat 1 rand2 s2).1).direction ≠ s2.direction →
      (strat = "evasive" ∧ rand2 < 1/10)) := by
  have hone : centipede_make_decision strat cd rand s
      = ({ s with direction := if s.direction = .RIGHT then .LEFT else .RIGHT }, 2) := by
    unfold centipede_make_decision
    rw [hseg]
    dsimp only
    rw [threat_fold_fires head _ s.bullets (s.direction, cd) hcd hthreat]
    rw [if_neg (fun h => absurd h.2.2 (by show ¬ max (0:Int) (3 - 1) ≤ 0; decide))]
    rfl
  refine ⟨by rw [hone], by rw [hone], ?_, ?_⟩
  · intro s1 rand1 hne
    cases hs1 : s1.centipede_segments with
    | nil => exact absurd hs1 hne
    | cons h1 r1 =>
      have hres : centipede_make_decision strat 2 rand1 s1
          = ({ s1 with direction := s1.direction }, 1) := by
        unfold centipede_make_decision
        rw [hs1]
        dsimp only
        rw [threat_fold_blocked h1 _ s1.bullets (s1.direction, 2) (by show (0:Int) < 2; decide)]
        rw [if_neg (fun h => absurd h.2.2 (by show ¬ max (0:Int) (2 - 1) ≤ 0; decide))]
        rfl
      rw [hres]
      exact ⟨rfl, rfl⟩
  · intro s2 rand2 hne
    cases hs2 : s2.centipede_segments with
    | nil =>
      exfalso
      apply hne
      unfold centipede_make_decision
      rw [hs2]
    | cons h2 r2 =>
      revert hne
      unfold centipede_make_decision
      rw [hs2]
      dsimp only
      rw [threat_fold_blocked h2 _ s2.bullets (s2.direction, 1) (by show (0:Int) < 1; decide)]
      split
      · rename_i hcnd
        intro _
        exact ⟨hcnd.1, hcnd.2.1⟩
      · intro hne
        exact absurd rfl hne

/-! ### C9: malformed configurations make initialization fail -/

theorem pyIdx_zero (i : Int) : pyIdx 0 i = .error .indexError := by
  unfold pyIdx
  by_cases h0 : 0 ≤ i
  · rw [if_pos h0, if_neg (by omega)]
  · rw [if_neg h0, if_neg (by omega)]

theorem pyIdx_err_ge {n : Nat} {i : Int} (h : (n : Int) ≤ i) : pyIdx n i = .error .indexError := by
  unfold pyIdx
  rw [if_pos (by omega), if_neg (by omega)]

theorem pyGet_nil {α : Type} (i : Int) : pyGet ([] : List α) i = .error .indexError := by
  unfold pyGet
  rw [show ([] : List α).length = 0 from rfl, pyIdx_zero, py_bind_err]

theorem pyGet_replicate {α : Type} (n : Nat) (a : α) (i : Int) (h0 : 0 ≤ i)
    (hn : i < (n : Int)) : pyGet (List.replicate n a) i = .ok a := by
  obtain ⟨x, hx, hx2⟩ := pyGet_ok (l := List.replicate n a) h0
    (by rw [List.length_replicate]; exact hn)
  rw [List.getElem?_replicate, if_pos (by omega)] at hx2
  obtain rfl : a = x := Option.some.inj hx2
  exact hx

theorem setCell_err_x {b : List (List String)} {hN wN : Nat} {y x : Int} (v : String)
    (hb : Rect b hN wN) (hy0 : 0 ≤ y) (hyh : y < (hN : Int)) (hxw : (wN : Int) ≤ x) :
    setCell b y x v = .error .indexError := by
  have hyl : y < (b.length : Int) := by rw [hb.1]; exact hyh
  obtain ⟨row, hrow, hrow2⟩ := pyGet_ok hy0 hyl
  have hrmem : row ∈ b := by
    rw [List.getElem?_eq_some] at hrow2
    obtain ⟨hlt, he⟩ := hrow2
    exact he ▸ List.getElem_mem hlt
  have hrl : row.length = wN := hb.2 row hrmem
  unfold setCell
  rw [hrow, py_bind_ok]
  have hps : pySet row x v = .error .indexError := by
    unfold pySet
    rw [hrl, pyIdx_err_ge hxw, py_bind_err]
  rw [hps, py_bind_err]

theorem stamp_first_err (v : String) (hN wN : Nat) :
    ∀ (l : List Position) (b : List (List String)), Rect b hN wN →
      (∀ p ∈ l, 0 ≤ p.x ∧ 0 ≤ p.y ∧ p.y < (hN : Int)) →
      (∃ p ∈ l, (wN : Int) ≤ p.x) →
      ∃ e, l.foldlM (fun bb p => setCell bb p.y p.x v) b = .error e := by
  intro l
  induction l with
  | nil =>
    intro b hb hall hex
    simp at hex
  | cons p t ih =>
    intro b hb hall hex
    by_cases hpx : (wN : Int) ≤ p.x
    · refine ⟨.indexError, ?_⟩
      rw [List.foldlM_cons,
        setCell_err_x v hb (hall p (by simp)).2.1 (hall p (by simp)).2.2 hpx, py_bind_err]
    · obtain ⟨hx0, hy0, hyh⟩ := hall p (by simp)
      obtain ⟨row, b2, _, hset, hrect, _⟩ := setCell_ok v hb hy0 hyh hx0 (by omega)
      rw [List.foldlM_cons, hset, py_bind_ok]
      refine ih b2 hrect (fun q hq => hall q (by simp [hq])) ?_
      rcases hex with ⟨q, hq, hqx⟩
      rcases List.mem_cons.mp hq with h1 | h1
      · subst h1
        exact absurd hqx hpx
      · exact ⟨q, h1, hqx⟩

/-- Every malformed configuration makes `initialize_game` fail: a
non-positive height leaves no row for the player, a non-positive width no
column, a width below 8 cannot hold the eight-segment centipede, and a
height below 5 gives the mushroom draw an empty range. -/
theorem init_fails (w h : Int) (draws : Nat → Int × Int)
    (hbad : w ≤ 0 ∨ h ≤ 0 ∨ w < 8 ∨ h < 5) :
    ∃ e, initialize_game w h draws = .error e := by
  unfold initialize_game initialize_board
  dsimp only
  by_cases hh0 : h ≤ 0
  · refine ⟨.indexError, ?_⟩
    have hcell : setCell (List.replicate h.toNat (List.replicate w.toNat GameEntity.EMPTY.value))
        (h - 1) (Int.fdiv w 2) GameEntity.PLAYER.value = .error .indexError := by
      rw [show h.toNat = 0 by omega]
      unfold setCell
      rw [show List.replicate 0 (List.replicate w.toNat GameEntity.EMPTY.value)
          = ([] : List (List String)) from rfl]
      rw [pyGet_nil, py_bind_err]
    rw [hcell, py_bind_err]
  · push_neg at hh0
    by_cases hw0 : w ≤ 0
    · refine ⟨.indexError, ?_⟩
      have hcell : setCell (List.replicate h.toNat (List.replicate w.toNat GameEntity.EMPTY.value))
          (h - 1) (Int.fdiv w 2) GameEntity.PLAYER.value = .error .indexError := by
        unfold setCell
        rw [pyGet_replicate h.toNat _ (h - 1) (by omega) (by omega), py_bind_ok]
        have hps : pySet (List.replicate w.toNat GameEntity.EMPTY.value)
            (Int.fdiv w 2) GameEntity.PLAYER.value = .error .indexError := by
          unfold pySet
          rw [List.length_replicate, show w.toNat = 0 by omega, pyIdx_zero, py_bind_err]
        rw [hps, py_bind_err]
      rw [hcell, py_bind_err]
    · push_neg at hw0
      have hsegs : (List.range 8).map (fun i => (⟨(i : Int), 0⟩ : Position))
          = [⟨0, 0⟩, ⟨1, 0⟩, ⟨2, 0⟩, ⟨3, 0⟩, ⟨4, 0⟩, ⟨5, 0⟩, ⟨6, 0⟩, ⟨7, 0⟩] := by decide
      rw [hsegs]
      have hrect0 : Rect (List.replicate h.toNat (List.replicate w.toNat GameEntity.EMPTY.value))
          h.toNat w.toNat :=
        ⟨List.length_replicate .., fun r hr => by
          rw [List.eq_of_mem_replicate hr, List.length_replicate]⟩
      have hfe : Int.fdiv w 2 = w / 2 := Int.fdiv_eq_ediv _ (by omega)
      have hfdiv0 : 0 ≤ Int.fdiv w 2 := by omega
      have hfdivw : Int.fdiv w 2 < w := by omega
      obtain ⟨prow, board1, _, hset1, hrect1, _⟩ :=
        setCell_ok GameEntity.PLAYER.value hrect0 (y := h - 1) (x := Int.fdiv w 2)
          (by omega) (by omega) hfdiv0 (by omega)
      rw [hset1, py_bind_ok]
      have hbnd : ∀ p ∈ ([⟨0, 0⟩, ⟨1, 0⟩, ⟨2, 0⟩, ⟨3, 0⟩, ⟨4, 0⟩, ⟨5, 0⟩, ⟨6, 0⟩,
          ⟨7, 0⟩] : List Position), 0 ≤ p.x ∧ p.x ≤ 7 ∧ p.y = 0 := by
        intro p hp
        fin_cases hp <;> exact ⟨by decide, by decide, rfl⟩
      by_cases hw8 : w < 8
      · obtain ⟨e, hfold⟩ := stamp_first_err GameEntity.CENTIPEDE.value h.toNat w.toNat
          ([⟨0, 0⟩, ⟨1, 0⟩, ⟨2, 0⟩, ⟨3, 0⟩, ⟨4, 0⟩, ⟨5, 0⟩, ⟨6, 0⟩, ⟨7, 0⟩] : List Position)
          board1 hrect1
          (by
            intro p hp
            have := hbnd p hp
            omega)
          ⟨⟨7, 0⟩, by decide, by show ((w.toNat : Int) ≤ 7); omega⟩
        exact ⟨e, by rw [hfold, py_bind_err]⟩
      · push_neg at hw8
        have hh4 : h < 5 := by omega
        obtain ⟨board2, hfold, hrect2⟩ := stamp_list_ok GameEntity.CENTIPEDE.value
          ([⟨0, 0⟩, ⟨1, 0⟩, ⟨2, 0⟩, ⟨3, 0⟩, ⟨4, 0⟩, ⟨5, 0⟩, ⟨6, 0⟩, ⟨7, 0⟩] : List Position)
          w h (by omega) (by omega)
          (by
            intro p hp
            have := hbnd p hp
            exact ⟨by omega, by omega, by omega, by omega⟩)
          board1 hrect1
        rw [hfold, py_bind_ok]
        refine ⟨.valueError, ?_⟩
        rw [show List.range 20 = 0 :: List.map Nat.succ (List.range 19)
            from List.range_succ_eq_map 19]
        rw [List.foldlM_cons]
        have hr1 : pyRandint 0 (w - 1) (draws 0).1
            = .ok (max 0 (min (draws 0).1 (w - 1))) := by
          unfold pyRandint
          rw [if_pos (by omega)]
        have hr2 : pyRandint 2 (h - 3) (draws 0).2 = .error .valueError := by
          unfold pyRandint
          rw [if_neg (by omega)]
        simp only [hr1, hr2, py_bind_ok, py_bind_err]

/-- C9: every malformed configuration — non-positive board width or height,
or dimensions too small for the fixed initial entity placements (a width
below 8 cannot hold the eight-segment centipede, a height below 5 leaves no
legal mushroom band) — makes `initialize_game` fail fast with an error
during initialization instead of returning an undefined game state. -/
theorem C9_initialization_fails (w h : Int) (draws : Nat → Int × Int)
    (hbad : w ≤ 0 ∨ h ≤ 0 ∨ w < 8 ∨ h < 5) :
    ∃ e, initialize_game w h draws = .error e :=
  init_fails w h draws hbad

theorem C9_initialization_fails_witness :
    ((0 : Int) ≤ 0 ∨ (0 : Int) ≤ 0 ∨ (0 : Int) < 8 ∨ (0 : Int) < 5) ∧
    ∃ e, initialize_game 0 0 (fun _ => (0, 0)) = .error e :=
  ⟨Or.inl (by decide), C9_initialization_fails 0 0 (fun _ => (0, 0)) (Or.inl (by decide))⟩

/-! ### C1: segment distinctness -/

theorem Position_move_ne (p : Position) (d : Direction) : p.move d ≠ p := by
  intro hc
  have hx := congrArg Position.x hc
  have hy := congrArg Position.y hc
  cases d <;> dsimp only [Position.move, Direction.value] at hx hy <;> omega

/-- C1: the claim that every reachable state has pairwise-distinct centipede
segments is false.  From the very initial state of an 8 × 5 game — head at
index 0 at the left end of the body, shared direction RIGHT — the first
update moves the head onto (1, 0) while segment 2 takes segment 1's old
position, also (1, 0): segments 0 and 2 coincide. -/
theorem c1_counterexample :
    ¬ (∀ (w h : Int) (sstrat cstrat : String) (s : GameState) (cd : Int),
        Reachable w h sstrat cstrat s cd → s.centipede_segments.Nodup) := by
  intro hall
  have h0 : Reachable 8 5 "predictive" "passive" c1s0 0 :=
    .init (fun _ => (0, 2)) c1s0 (by rfl)
  have h1 : Reachable 8 5 "predictive" "passive" c1s1 0 :=
    .step c1s0 0 2 c1s1 0 h0 rfl (by rfl)
  exact absurd (hall 8 5 "predictive" "passive" c1s1 0 h1) (by decide)

/-- C1 (amended): after any successful update the head cannot coincide with
the segment immediately behind it — the head always moves off the cell the
neck takes — although it can coincide with deeper segments, as the initial
state shows after one tick. -/
theorem C1_segments_amended (s s2 : GameState) (hok : update_game_state s = .ok s2)
    (a b : Position) (t : List Position)
    (hseg : s2.centipede_segments = a :: b :: t) : a ≠ b := by
  obtain ⟨r0, rows, hbd, _, _, _, _, hsegs, _, _⟩ := update_parts hok
  rw [hsegs] at hseg
  cases hcs : (update_bullets s).centipede_segments with
  | nil =>
    rw [move_centipede_nil _ _ hcs, hcs] at hseg
    exact List.noConfusion hseg
  | cons h1 t1 =>
    rw [move_centipede_cons _ _ _ _ hcs] at hseg
    dsimp only at hseg
    by_cases hturn : (h1.x = 0 ∧ (update_bullets s).direction = .LEFT) ∨
        (h1.x = (r0.length : Int) - 1 ∧ (update_bullets s).direction = .RIGHT)
    · rw [if_pos hturn, if_pos hturn, List.map_cons] at hseg
      cases t1 with
      | nil =>
        injection hseg with ha hbt
        exact List.noConfusion hbt
      | cons y ys =>
        rw [List.map_cons] at hseg
        injection hseg with ha hbt
        injection hbt with hb hrest
        rw [← ha, ← hb]
        exact Position_move_ne _ _
    · rw [if_neg hturn, if_neg hturn] at hseg
      cases t1 with
      | nil =>
        injection hseg with ha hbt
        exact List.noConfusion hbt
      | cons y ys =>
        injection hseg with ha hbt
        injection hbt with hb hrest
        rw [← ha, ← hb]
        exact Position_move_ne _ _

theorem C1_segments_amended_witness :
    update_game_state c1w = .ok c1w2 ∧
    c1w2.centipede_segments = ⟨2, 0⟩ :: ⟨1, 0⟩ :: [] ∧
    (⟨2, 0⟩ : Position) ≠ ⟨1, 0⟩ :=
  ⟨by rfl, by rfl, C1_segments_amended c1w c1w2 (by rfl) ⟨2, 0⟩ ⟨1, 0⟩ [] (by rfl)⟩

theorem C2_centipede_move_witness :
    c2s.board = [" ", " ", " "] :: [[" ", " ", " "], [" ", "P", " "]] ∧
    (update_bullets c2s).centipede_segments = (⟨0, 0⟩ : Position) :: [⟨1, 0⟩] ∧
    update_game_state c2s = .ok c2s3 ∧
    c2s3.direction = .RIGHT ∧
    c2s3.centipede_segments.get? 0 = some ⟨1, 1⟩ ∧
    c2s3.centipede_segments.get? 1 = some ⟨0, 1⟩ := by
  have h := C2_centipede_move c2s c2s3 [" ", " ", " "] [[" ", " ", " "], [" ", "P", " "]]
    ⟨0, 0⟩ [⟨1, 0⟩] rfl rfl (by rfl)
  have hp := h.2.2.2 ⟨rfl, rfl⟩
  refine ⟨rfl, rfl, by rfl, hp.1, ?_, ?_⟩
  · exact hp.2.1.trans (by decide)
  · exact (hp.2.2 1 (by decide) (by decide)).trans (by decide)

theorem C7_shooter_decision_witness :
    c7s.board = [" ", " ", " "] :: [[" ", " ", " "], [" ", "P", " "]] ∧
    c7s.centipede_segments = (⟨0, 0⟩ : Position) :: [] ∧
    (if "reactive" = "predictive" then predict_centipede_position c7s
      else .ok ⟨0, 0⟩) = .ok (⟨0, 0⟩ : Position) ∧
    shooter_make_decision "reactive" c7s = .ok c7s1 ∧
    c7s1.player_pos = ⟨0, 2⟩ ∧ c7s1.bullets = [⟨0, 1⟩] := by
  have h := C7_shooter_decision "reactive" c7s c7s1 ⟨0, 0⟩ [] ⟨0, 0⟩
    [" ", " ", " "] [[" ", " ", " "], [" ", "P", " "]] rfl rfl (by rfl) (by rfl)
  have hpl : c7s1.player_pos = ⟨0, 2⟩ := (h.2.1 (by decide)).trans (by decide)
  have hbul : c7s1.bullets = [⟨0, 1⟩] := h.2.2.2.1.trans (by decide)
  exact ⟨rfl, rfl, by rfl, by rfl, hpl, hbul⟩

theorem C8_cooldown_amended_witness :
    c8sA.centipede_segments = (⟨5, 5⟩ : Position) :: [] ∧ (0 : Int) ≤ 0 ∧
    (∃ b ∈ c8sA.bullets, |b.x - (⟨5, 5⟩ : Position).x| ≤ 1 ∧ b.y < (⟨5, 5⟩ : Position).y) ∧
    ((centipede_make_decision "passive" 0 2 c8sA).1).direction
      = (if c8sA.direction = .RIGHT then .LEFT else .RIGHT) ∧
    (centipede_make_decision "passive" 0 2 c8sA).2 = 2 := by
  have h := C8_cooldown_amended "passive" 0 2 c8sA ⟨5, 5⟩ [] rfl (by decide)
    ⟨⟨5, 0⟩, by decide, by decide, by decide⟩
  exact ⟨rfl, by decide, ⟨⟨5, 0⟩, by decide, by decide, by decide⟩, h.1, h.2.1⟩

/-! ### C5: the driver-loop invariant and error-freedom -/

theorem flip_ne_down (d : Direction) :
    (if d = .RIGHT then Direction.LEFT else Direction.RIGHT) ≠ .DOWN := by
  by_cases h : d = .RIGHT
  · rw [if_pos h]
    intro hc
    exact Direction.noConfusion hc
  · rw [if_neg h]
    intro hc
    exact Direction.noConfusion hc

theorem threat_fold_dir (head : Position) (flip : Direction) (hflip : flip ≠ .DOWN) :
    ∀ (l : List Position) (dc : Direction × Int), dc.1 ≠ .DOWN →
      (l.foldl (fun dc bullet =>
        if |bullet.x - head.x| ≤ 1 ∧ bullet.y < head.y then
          (if dc.2 ≤ 0 then (flip, 3) else dc)
        else dc) dc).1 ≠ .DOWN := by
  intro l
  induction l with
  | nil =>
    intro dc h
    exact h
  | cons b t ih =>
    intro dc h
    rw [List.foldl_cons]
    apply ih
    by_cases h1 : |b.x - head.x| ≤ 1 ∧ b.y < head.y
    · rw [if_pos h1]
      by_cases h2 : dc.2 ≤ 0
      · rw [if_pos h2]
        exact hflip
      · rw [if_neg h2]
        exact h
    · rw [if_neg h1]
      exact h

theorem centipede_decide_dir (strat : String) (cd : Int) (rand : ℚ) (s : GameState)
    (hdir : s.direction ≠ .DOWN) :
    ((centipede_make_decision strat cd rand s).1).direction ≠ .DOWN := by
  unfold centipede_make_decision
  cases hseg : s.centipede_segments with
  | nil => exact hdir
  | cons head rest =>
    dsimp only
    split
    · split
      · intro hc
        exact Direction.noConfusion hc
      · exact threat_fold_dir head Direction.LEFT
          (fun hc => Direction.noConfusion hc) s.bullets (s.direction, cd) hdir
    · split
      · intro hc
        exact Direction.noConfusion hc
      · exact threat_fold_dir head Direction.RIGHT
          (fun hc => Direction.noConfusion hc) s.bullets (s.direction, cd) hdir

theorem predict_ok (s : GameState) (r0 : List String) (rows : List (List String))
    (hbd : s.board = r0 :: rows) :
    ∃ t, predict_centipede_position s = .ok t := by
  unfold predict_centipede_position
  cases s.centipede_segments with
  | nil => exact ⟨_, rfl⟩
  | cons head rest =>
    dsimp only
    by_cases h1 : s.direction = .RIGHT
    · rw [if_pos h1, hbd, pyGet_cons_zero, py_bind_ok]
      by_cases h2 : head.x < (r0.length : Int) - 1
      · rw [if_pos h2]
        exact ⟨_, rfl⟩
      · rw [if_neg h2]
        exact ⟨_, rfl⟩
    · rw [if_neg h1]
      by_cases h2 : s.direction = .LEFT ∧ 0 < head.x
      · rw [if_pos h2]
        exact ⟨_, rfl⟩
      · rw [if_neg h2]
        exact ⟨_, rfl⟩

theorem move_player_inv_game (w h : Int) (s s2 : GameState) (d : Direction)
    (hdy : d.value.2 = 0) (r0 : List String) (rows : List (List String))
    (hbd : s.board = r0 :: rows) (hr0i : (r0.length : Int) = w)
    (hbli : (s.board.length : Int) = h) (hinv : GameInv w h s)
    (hm : move_player s d = .ok s2) : GameInv w h s2 := by
  obtain ⟨hw, hh, hrect, hpl, hply, hsegb, hmushb, hbulb, hdir, hsegtop⟩ := hinv
  rw [move_player_eq s d r0 rows hbd] at hm
  by_cases hc : 0 ≤ (s.player_pos.move d).x ∧ (s.player_pos.move d).x < (r0.length : Int)
      ∧ 0 ≤ (s.player_pos.move d).y ∧ (s.player_pos.move d).y < (s.board.length : Int)
  · rw [if_pos hc] at hm
    have h2 := (Except.ok.inj hm).symm
    subst h2
    refine ⟨hw, hh, hrect, ?_, ?_, hsegb, hmushb, hbulb, hdir, hsegtop⟩
    · exact ⟨hc.1, by rw [← hr0i]; exact hc.2.1, hc.2.2.1, by rw [← hbli]; exact hc.2.2.2⟩
    · show (s.player_pos.move d).y = h - 1
      unfold Position.move
      show s.player_pos.y + d.value.2 = h - 1
      rw [hdy]
      omega
  · rw [if_neg hc] at hm
    have h2 := (Except.ok.inj hm).symm
    subst h2
    exact ⟨hw, hh, hrect, hpl, hply, hsegb, hmushb, hbulb, hdir, hsegtop⟩

theorem shoot_inv (w h : Int) (t : GameState) (hinv : GameInv w h t) :
    GameInv w h (shoot t) := by
  obtain ⟨hw, hh, hrect, hpl, hply, hsegb, hmushb, hbulb, hdir, hsegtop⟩ := hinv
  refine ⟨hw, hh, hrect, hpl, hply, hsegb, hmushb, ?_, hdir, hsegtop⟩
  intro p hp
  rcases List.mem_append.mp hp with h1 | h1
  · exact hbulb p h1
  · have hpe : p = ⟨t.player_pos.x, t.player_pos.y - 1⟩ := by
      simpa using h1
    subst hpe
    obtain ⟨hx0, hxw, hy0, hyh⟩ := hpl
    refine ⟨hx0, hxw, ?_, ?_⟩
    · show 0 ≤ t.player_pos.y - 1
      omega
    · show t.player_pos.y - 1 < h
      omega

theorem shooter_ok (w h : Int) (strat : String) (s : GameState) (hinv : GameInv w h s) :
    ∃ s1, shooter_make_decision strat s = .ok s1 ∧ GameInv w h s1 := by
  cases hseg : s.centipede_segments with
  | nil =>
    refine ⟨s, ?_, hinv⟩
    unfold shooter_make_decision
    rw [hseg]
  | cons head rest =>
    have hinv0 := hinv
    obtain ⟨hw, hh, hrect, hpl, hply, hsegb, hmushb, hbulb, hdir, hsegtop⟩ := hinv
    cases hbd : s.board with
    | nil =>
      exfalso
      have h1 := hrect.1
      rw [hbd] at h1
      simp only [List.length_nil] at h1
      omega
    | cons r0 rows =>
      have hr0 : r0.length = w.toNat := hrect.2 r0 (by rw [hbd]; exact List.mem_cons_self r0 rows)
      have hr0i : (r0.length : Int) = w := by rw [hr0]; omega
      have hbli : (s.board.length : Int) = h := by rw [hrect.1]; omega
      obtain ⟨target, htar⟩ : ∃ t, (if strat = "predictive"
          then predict_centipede_position s else .ok head) = .ok t := by
        by_cases hstrat : strat = "predictive"
        · rw [if_pos hstrat]
          exact predict_ok s r0 rows hbd
        · rw [if_neg hstrat]
          exact ⟨head, rfl⟩
      have hfin : ∀ s2 : GameState, GameInv w h s2 →
          ∃ s1, ((if |s2.player_pos.x - target.x| ≤ 1
              then (Except.ok (shoot s2) : Py GameState) else .ok s2)) = .ok s1 ∧
            GameInv w h s1 := by
        intro s2 hinv2
        by_cases hcc : |s2.player_pos.x - target.x| ≤ 1
        · rw [if_pos hcc]
          exact ⟨shoot s2, rfl, shoot_inv w h s2 hinv2⟩
        · rw [if_neg hcc]
          exact ⟨s2, rfl, hinv2⟩
      have hmain : ∃ s1,
          ((if s.player_pos.x < target.x then
              (move_player s .RIGHT >>= fun s2 =>
                if |s2.player_pos.x - target.x| ≤ 1
                then (Except.ok (shoot s2) : Py GameState) else .ok s2)
            else if target.x < s.player_pos.x then
              (move_player s .LEFT >>= fun s2 =>
                if |s2.player_pos.x - target.x| ≤ 1
                then (Except.ok (shoot s2) : Py GameState) else .ok s2)
            else
              ((Except.ok s : Py GameState) >>= fun s2 =>
                if |s2.player_pos.x - target.x| ≤ 1
                then (Except.ok (shoot s2) : Py GameState) else .ok s2)) : Py GameState)
            = .ok s1 ∧ GameInv w h s1 := by
        by_cases h1 : s.player_pos.x < target.x
        · rw [if_pos h1]
          obtain ⟨s2, hm⟩ : ∃ s2, move_player s .RIGHT = .ok s2 := by
            rw [move_player_eq s .RIGHT r0 rows hbd]
            exact ⟨_, rfl⟩
          rw [hm, py_bind_ok]
          exact hfin s2 (move_player_inv_game w h s s2 .RIGHT rfl r0 rows hbd hr0i hbli hinv0 hm)
        · rw [if_neg h1]
          by_cases h2 : target.x < s.player_pos.x
          · rw [if_pos h2]
            obtain ⟨s2, hm⟩ : ∃ s2, move_player s .LEFT = .ok s2 := by
              rw [move_player_eq s .LEFT r0 rows hbd]
              exact ⟨_, rfl⟩
            rw [hm, py_bind_ok]
            exact hfin s2 (move_player_inv_game w h s s2 .LEFT rfl r0 rows hbd hr0i hbli hinv0 hm)
          · rw [if_neg h2, py_bind_ok]
            exact hfin s hinv0
      by_cases hstrat : strat = "predictive"
      · rw [if_pos hstrat] at htar
        unfold shooter_make_decision
        rw [hseg]
        dsimp only
        rw [if_pos hstrat, htar, py_bind_ok]
        exact hmain
      · rw [if_neg hstrat] at htar
        have htg : head = target := Except.ok.inj htar
        unfold shooter_make_decision
        rw [hseg]
        dsimp only
        rw [if_neg hstrat, py_bind_ok, htg]
        exact hmain

theorem update_ok_inv (w h : Int) (s : GameState) (hinv : GameInv w h s)
    (hgo : s.game_over = false) :
    ∃ s3, update_game_state s = .ok s3 ∧ GameInv w h s3 := by
  obtain ⟨hw, hh, hrect, hpl, hply, hsegb, hmushb, hbulb, hdir, hsegtop⟩ := hinv
  cases hbd : s.board with
  | nil =>
    exfalso
    have h1 := hrect.1
    rw [hbd] at h1
    simp only [List.length_nil] at h1
    omega
  | cons r0 rows =>
    have hr0 : r0.length = w.toNat := hrect.2 r0 (by rw [hbd]; exact List.mem_cons_self r0 rows)
    have hr0i : (r0.length : Int) = w := by rw [hr0]; omega
    have hbl : s.board.length = h.toNat := hrect.1
    have hbli : ((r0 :: rows).length : Int) = h := by rw [← hbd, hbl]; omega
    have hrect2 : Rect (r0 :: rows) (r0 :: rows).length r0.length := by
      constructor
      · rfl
      · intro r hr
        rw [hr0]
        exact hrect.2 r (by rw [hbd]; exact hr)
    obtain ⟨b1, hclear, hrectb1⟩ :=
      clear_board_ok (r0 :: rows) (r0 :: rows).length r0.length hrect2
    have hrectb1' : Rect b1 h.toNat w.toNat := by
      rw [← hr0, ← hbl, hbd]
      exact hrectb1
    obtain ⟨hubsegs, hubscore, hubmush, hubbul, hubpl, hubboard, hubdir, hubgo, hubsc2⟩ :=
      update_bullets_props s
    have hmovesrc : ∀ p ∈ (update_bullets s).centipede_segments, InBounds w h p ∧ p.y < h - 1 := by
      intro p hp
      exact ⟨hsegb p (hubsegs p hp), hsegtop hgo p (hubsegs p hp)⟩
    have hmcb := move_centipede_bounds w h (update_bullets s) (by omega) hmovesrc
      (by rw [hubdir]; exact hdir)
    have hmcf := move_centipede_fields ((r0.length : Int)) (update_bullets s)
    have hmcsegs : ∀ p ∈ (move_centipede ((r0.length : Int)) (update_bullets s)).centipede_segments,
        InBounds w h p := by
      rw [hr0i]
      exact hmcb.1
    have hmcmush : ∀ p ∈ (move_centipede ((r0.length : Int)) (update_bullets s)).mushrooms,
        InBounds w h p := by
      intro p hp
      rw [hmcf.2.2.1] at hp
      rcases hubmush p hp with h1 | h1
      · exact hmushb p h1
      · exact hsegb p h1
    have hmcbul : ∀ p ∈ (move_centipede ((r0.length : Int)) (update_bullets s)).bullets,
        InBounds w h p := by
      intro p hp
      rw [hmcf.2.2.2.1] at hp
      obtain ⟨hy0, q, hq, hpe⟩ := hubbul p hp
      obtain ⟨hqx0, hqxw, hqy0, hqyh⟩ := hbulb q hq
      subst hpe
      exact ⟨hqx0, hqxw, hy0, by show q.y - 1 < h; omega⟩
    have hmcpl : InBounds w h (move_centipede ((r0.length : Int)) (update_bullets s)).player_pos := by
      rw [hmcf.2.1, hubpl]
      exact hpl
    obtain ⟨b2, hstamp, hrectb2⟩ := stamp_board_ok
      (move_centipede ((r0.length : Int)) (update_bullets s)) w h (by omega) (by omega)
      hmcmush hmcbul hmcsegs hmcpl b1 hrectb1'
    refine ⟨check_game_over (((r0 :: rows).length : Int))
      { move_centipede ((r0.length : Int)) (update_bullets s) with board := b2 }, ?_, ?_⟩
    · unfold update_game_state
      rw [hbd, pyGet_cons_zero, py_bind_ok]
      dsimp only
      rw [hclear, py_bind_ok, update_bullets_board s b1, move_centipede_board,
        stamp_board_state_board, hstamp, py_bind_ok]
    · have hcf := check_game_over_fields (((r0 :: rows).length : Int))
        { move_centipede ((r0.length : Int)) (update_bullets s) with board := b2 }
      refine ⟨hw, hh, ?_, ?_, ?_, ?_, ?_, ?_, ?_, ?_⟩
      · rw [hcf.2.2.2.2.1]
        exact hrectb2
      · rw [hcf.2.1]
        exact hmcpl
      · rw [hcf.2.1]
        show (move_centipede ((r0.length : Int)) (update_bullets s)).player_pos.y = h - 1
        rw [hmcf.2.1, hubpl]
        omega
      · intro p hp
        rw [hcf.2.2.2.2.2.2] at hp
        exact hmcsegs p hp
      · intro p hp
        rw [hcf.2.2.1] at hp
        exact hmcmush p hp
      · intro p hp
        rw [hcf.2.2.2.1] at hp
        exact hmcbul p hp
      · rw [hcf.2.2.2.2.2.1]
        rw [hr0i]
        exact hmcb.2
      · intro hgo3 p hp
        rw [hcf.2.2.2.2.2.2] at hp
        by_contra hge
        push_neg at hge
        have htrue := (check_game_over_iff (((r0 :: rows).length : Int))
          { move_centipede ((r0.length : Int)) (update_bullets s) with board := b2 }).mpr
          (Or.inr (Or.inl ⟨p, hp, by omega⟩))
        rw [hgo3] at htrue
        exact Bool.noConfusion htrue

theorem init_segments_eq : (List.range 8).map (fun i => (⟨(i : Int), 0⟩ : Position))
    = [⟨0, 0⟩, ⟨1, 0⟩, ⟨2, 0⟩, ⟨3, 0⟩, ⟨4, 0⟩, ⟨5, 0⟩, ⟨6, 0⟩, ⟨7, 0⟩] := by decide

theorem mush_fold_ok (w h : Int) (hw : 8 ≤ w) (hh : 5 ≤ h) (draws : Nat → Int × Int)
    (b : List (List String)) (hb : Rect b h.toNat w.toNat) :
    ∃ md : List Position × List (List String),
      (List.range 20).foldlM
        (fun (acc : List Position × List (List String)) i => do
          let x ← pyRandint 0 (w - 1) (draws i).1
          let y ← pyRandint 2 (h - 3) (draws i).2
          let pos : Position := ⟨x, y⟩
          let bb ← setCell acc.2 pos.y pos.x GameEntity.MUSHROOM.value
          (.ok (acc.1 ++ [pos], bb) : Py (List Position × List (List String))))
        (([] : List Position), b) = .ok md ∧
      ((∀ p ∈ md.1, InBounds w h p) ∧ Rect md.2 h.toNat w.toNat) := by
  refine foldlM_ok_of_inv _
    (fun acc => (∀ p ∈ acc.1, InBounds w h p) ∧ Rect acc.2 h.toNat w.toNat)
    (List.range 20) (([], b)) ⟨by simp, hb⟩ ?_
  intro acc i hP _
  obtain ⟨hPm, hPr⟩ := hP
  have hx : pyRandint 0 (w - 1) (draws i).1
      = .ok (max 0 (min (draws i).1 (w - 1))) := by
    unfold pyRandint
    rw [if_pos (by omega)]
  have hy : pyRandint 2 (h - 3) (draws i).2
      = .ok (max 2 (min (draws i).2 (h - 3))) := by
    unfold pyRandint
    rw [if_pos (by omega)]
  obtain ⟨row, bb2, _, hset, hrect2, _⟩ := setCell_ok GameEntity.MUSHROOM.value hPr
    (y := max 2 (min (draws i).2 (h - 3))) (x := max 0 (min (draws i).1 (w - 1)))
    (by omega) (by omega) (by omega) (by omega)
  refine ⟨(acc.1 ++ [⟨max 0 (min (draws i).1 (w - 1)), max 2 (min (draws i).2 (h - 3))⟩], bb2),
    ?_, ?_, hrect2⟩
  · rw [hx, py_bind_ok, hy, py_bind_ok]
    dsimp only
    rw [hset, py_bind_ok]
  · intro p hp
    rcases List.mem_append.mp hp with h1 | h1
    · exact hPm p h1
    · have hpe : p = ⟨max 0 (min (draws i).1 (w - 1)), max 2 (min (draws i).2 (h - 3))⟩ := by
        simpa using h1
      subst hpe
      exact ⟨by show (0:Int) ≤ max 0 (min (draws i).1 (w - 1)); omega,
        by show max 0 (min (draws i).1 (w - 1)) < w; omega,
        by show (0:Int) ≤ max 2 (min (draws i).2 (h - 3)); omega,
        by show max 2 (min (draws i).2 (h - 3)) < h; omega⟩

theorem init_inv {w h : Int} {draws : Nat → Int × Int} {s : GameState}
    (hok : initialize_game w h draws = .ok s) : GameInv w h s ∧ s.game_over = false := by
  by_cases hgood : 8 ≤ w ∧ 5 ≤ h
  case neg =>
    obtain ⟨e, he⟩ := init_fails w h draws (by omega)
    rw [he] at hok
    exact Except.noConfusion hok
  case pos =>
    obtain ⟨hw, hh⟩ := hgood
    unfold initialize_game initialize_board at hok
    dsimp only at hok
    have hrect0 : Rect (List.replicate h.toNat (List.replicate w.toNat GameEntity.EMPTY.value))
        h.toNat w.toNat :=
      ⟨List.length_replicate .., fun r hr => by
        rw [List.eq_of_mem_replicate hr, List.length_replicate]⟩
    have hfe : Int.fdiv w 2 = w / 2 := Int.fdiv_eq_ediv _ (by omega)
    obtain ⟨prow, board1, _, hset1, hrect1, _⟩ :=
      setCell_ok GameEntity.PLAYER.value hrect0 (y := h - 1) (x := Int.fdiv w 2)
        (by omega) (by omega) (by omega) (by omega)
    rw [hset1, py_bind_ok, init_segments_eq] at hok
    obtain ⟨board2, hfold, hrect2⟩ := stamp_list_ok GameEntity.CENTIPEDE.value
      ([⟨0, 0⟩, ⟨1, 0⟩, ⟨2, 0⟩, ⟨3, 0⟩, ⟨4, 0⟩, ⟨5, 0⟩, ⟨6, 0⟩, ⟨7, 0⟩] : List Position)
      w h (by omega) (by omega)
      (by
        intro p hp
        have hb8 : 0 ≤ p.x ∧ p.x ≤ 7 ∧ p.y = 0 := by
          fin_cases hp <;> exact ⟨by decide, by decide, rfl⟩
        exact ⟨by omega, by omega, by omega, by omega⟩)
      board1 hrect1
    rw [hfold, py_bind_ok] at hok
    obtain ⟨md, hmd, hmdmush, hmdrect⟩ := mush_fold_ok w h hw hh draws board2 hrect2
    rw [hmd, py_bind_ok] at hok
    obtain rfl := Except.ok.inj hok
    have hfd0 : 0 ≤ Int.fdiv w 2 := by omega
    have hfdw : Int.fdiv w 2 < w := by omega
    refine ⟨⟨hw, hh, hmdrect, ?_, rfl, ?_, ?_, ?_, ?_, ?_⟩, rfl⟩
    · exact ⟨hfd0, hfdw, by show (0:Int) ≤ h - 1; omega, by show h - 1 < h; omega⟩
    · intro p hp
      have hb8 : 0 ≤ p.x ∧ p.x ≤ 7 ∧ p.y = 0 := by
        fin_cases hp <;> exact ⟨by decide, by decide, rfl⟩
      exact ⟨by omega, by omega, by omega, by omega⟩
    · exact hmdmush
    · intro p hp
      exact absurd hp (List.not_mem_nil p)
    · intro hc
      exact Direction.noConfusion hc
    · intro _ p hp
      have hb8 : 0 ≤ p.x ∧ p.x ≤ 7 ∧ p.y = 0 := by
        fin_cases hp <;> exact ⟨by decide, by decide, rfl⟩
      omega

theorem tick_inv (w h : Int) (sstrat cstrat : String) (rand : ℚ) (cd : Int) (s : GameState)
    (hinv : GameInv w h s) (hgo : s.game_over = false) :
    ∃ s2 cd2, tick sstrat cstrat rand cd s = .ok (s2, cd2) ∧ GameInv w h s2 := by
  obtain ⟨s1, hsh, hinv1⟩ := shooter_ok w h sstrat s hinv
  have hshf := shooter_fields hsh
  have hcf := centipede_decide_fields cstrat cd rand s1
  have hinv2 : GameInv w h (centipede_make_decision cstrat cd rand s1).1 := by
    obtain ⟨hw, hh, hrect, hpl, hply, hsegb, hmushb, hbulb, hdir, hsegtop⟩ := hinv1
    refine ⟨hw, hh, ?_, ?_, ?_, ?_, ?_, ?_, ?_, ?_⟩
    · rw [hcf.2.2.2.2.2.2]
      exact hrect
    · rw [hcf.2.1]
      exact hpl
    · rw [hcf.2.1]
      exact hply
    · intro p hp
      rw [hcf.2.2.1] at hp
      exact hsegb p hp
    · intro p hp
      rw [hcf.2.2.2.1] at hp
      exact hmushb p hp
    · intro p hp
      rw [hcf.2.2.2.2.1] at hp
      exact hbulb p hp
    · exact centipede_decide_dir cstrat cd rand s1 hdir
    · intro hgo2 p hp
      rw [hcf.2.2.1] at hp
      rw [hcf.2.2.2.2.2.1] at hgo2
      exact hsegtop hgo2 p hp
  have hgo2 : ((centipede_make_decision cstrat cd rand s1).1).game_over = false := by
    rw [hcf.2.2.2.2.2.1, hshf.2.2.2.1, hgo]
  obtain ⟨s3, hup, hinv3⟩ := update_ok_inv w h _ hinv2 hgo2
  refine ⟨s3, (centipede_make_decision cstrat cd rand s1).2, ?_, hinv3⟩
  unfold tick
  rw [hsh, py_bind_ok]
  dsimp only
  rw [hup, py_bind_ok]

theorem reach_inv {w h : Int} {sstrat cstrat : String} {s : GameState} {cd : Int}
    (hr : Reachable w h sstrat cstrat s cd) : GameInv w h s := by
  induction hr with
  | init draws s hok => exact (init_inv hok).1
  | step s cd rand s2 cd2 hr hgo htick ih =>
    obtain ⟨s2', cd2', htick', hinv'⟩ := tick_inv w h sstrat cstrat rand cd s ih hgo
    have he2 := Except.ok.inj (htick.symm.trans htick')
    have hs2 : s2 = s2' := congrArg Prod.fst he2
    rw [hs2]
    exact hinv'

/-- C5: every reachable state keeps the player, every centipede segment,
every mushroom and every bullet inside `[0, w) × [0, h)` — bullets that
would exit through the top having been removed within the same tick — and
from any reachable non-terminal state the next driver tick succeeds for
every random draw: all of its board writes are in range and no operation
returns an error. -/
theorem C5_safety (w h : Int) (sstrat cstrat : String) (s : GameState) (cd : Int)
    (hr : Reachable w h sstrat cstrat s cd) :
    InBounds w h s.player_pos ∧
    (∀ p ∈ s.centipede_segments, InBounds w h p) ∧
    (∀ p ∈ s.mushrooms, InBounds w h p) ∧
    (∀ p ∈ s.bullets, InBounds w h p) ∧
    (s.game_over = false → ∀ rand : ℚ,
      ∃ s2 cd2, tick sstrat cstrat rand cd s = .ok (s2, cd2)) := by
  have hinv := reach_inv hr
  obtain ⟨hw, hh, hrect, hpl, hply, hsegb, hmushb, hbulb, hdir, hsegtop⟩ := hinv
  refine ⟨hpl, hsegb, hmushb, hbulb, ?_⟩
  intro hgo rand
  obtain ⟨s2, cd2, htick, _⟩ := tick_inv w h sstrat cstrat rand cd s
    ⟨hw, hh, hrect, hpl, hply, hsegb, hmushb, hbulb, hdir, hsegtop⟩ hgo
  exact ⟨s2, cd2, htick⟩

theorem C5_safety_witness :
    Reachable 8 5 "predictive" "passive" c1s0 0 ∧
    (InBounds 8 5 c1s0.player_pos ∧
     (∀ p ∈ c1s0.centipede_segments, InBounds 8 5 p) ∧
     (∀ p ∈ c1s0.mushrooms, InBounds 8 5 p) ∧
     (∀ p ∈ c1s0.bullets, InBounds 8 5 p) ∧
     (c1s0.game_over = false → ∀ rand : ℚ,
       ∃ s2 cd2, tick "predictive" "passive" rand 0 c1s0 = .ok (s2, cd2))) :=
  ⟨.init (fun _ => (0, 2)) c1s0 (by rfl),
   C5_safety 8 5 "predictive" "passive" c1s0 0 (.init (fun _ => (0, 2)) c1s0 (by rfl))⟩

/-! ### C10: mushrooms influence nothing but the rendered board -/

theorem py_map_ok {α β : Type} (f : α → β) (a : α) :
    Except.map f (.ok a : Py α) = .ok (f a) := rfl

theorem py_map_err {α β : Type} (f : α → β) (e : PyError) :
    Except.map f (.error e : Py α) = .error e := rfl

theorem pyIdx_lt {n : Nat} {i : Int} {j : Nat} (h : pyIdx n i = .ok j) : j < n := by
  unfold pyIdx at h
  by_cases h0 : 0 ≤ i
  · rw [if_pos h0] at h
    by_cases h1 : i < (n : Int)
    · rw [if_pos h1] at h
      have h2 := Except.ok.inj h
      omega
    · rw [if_neg h1] at h
      exact Except.noConfusion h
  · rw [if_neg h0] at h
    by_cases h1 : 0 ≤ i + (n : Int)
    · rw [if_pos h1] at h
      have h2 := Except.ok.inj h
      push_neg at h0
      omega
    · rw [if_neg h1] at h
      exact Except.noConfusion h

theorem setCell_inv {b b2 : List (List String)} {yI xI : Int} {v : String}
    (hset : setCell b yI xI v = .ok b2) :
    ∃ yi row xi, pyIdx b.length yI = .ok yi ∧ b[yi]? = some row ∧
      pyIdx row.length xI = .ok xi ∧ b2 = b.set yi (row.set xi v) := by
  unfold setCell pyGet pySet at hset
  cases hyi : pyIdx b.length yI with
  | error e =>
    simp only [hyi, py_bind_err] at hset
    exact Except.noConfusion hset
  | ok yi =>
    simp only [hyi, py_bind_ok] at hset
    have hlt := pyIdx_lt hyi
    obtain ⟨row, hrow⟩ : ∃ row, b.get? yi = some row := by
      rw [List.get?_eq_getElem?]
      exact ⟨_, List.getElem?_eq_getElem hlt⟩
    rw [hrow] at hset
    dsimp only at hset
    simp only [py_bind_ok] at hset
    cases hxi : pyIdx row.length xI with
    | error e =>
      simp only [hxi, py_bind_err] at hset
      exact Except.noConfusion hset
    | ok xi =>
      simp only [hxi, py_bind_ok] at hset
      refine ⟨yi, row, xi, rfl, ?_, hxi, (Except.ok.inj hset).symm⟩
      rw [← List.get?_eq_getElem?]
      exact hrow

theorem setCell_shape {b b2 : List (List String)} {yI xI : Int} {v : String}
    (hset : setCell b yI xI v = .ok b2) : shape b2 = shape b := by
  obtain ⟨yi, row, xi, hyi, hrow, hxi, rfl⟩ := setCell_inv hset
  have hylt : yi < b.length := pyIdx_lt hyi
  unfold shape
  rw [List.map_set, List.length_set]
  apply List.ext_getElem?
  intro n
  by_cases hn : n = yi
  · subst hn
    rw [List.getElem?_set_self (by rw [List.length_map]; exact hylt)]
    rw [List.getElem?_map, hrow]
    rfl
  · rw [List.getElem?_set_ne (fun hc => hn hc.symm)]

theorem setCell_cellAt {b b2 : List (List String)} {p : Position} {v : String}
    (hset : setCell b p.y p.x v = .ok b2) (y x : Nat) :
    (writesTo (shape b) p y x → cellAt b2 y x = some v) ∧
    (¬ writesTo (shape b) p y x → cellAt b2 y x = cellAt b y x) := by
  obtain ⟨yi, row, xi, hyi, hrow, hxi, rfl⟩ := setCell_inv hset
  have hylt : yi < b.length := pyIdx_lt hyi
  have hxlt : xi < row.length := pyIdx_lt hxi
  have hsl : (shape b).length = b.length := List.length_map b List.length
  constructor
  · rintro ⟨hwy, wl, hwl, hwx⟩
    rw [show (shape b).length = b.length from hsl] at hwy
    have hy : y = yi := Except.ok.inj (hwy.symm.trans hyi)
    subst hy
    rw [show shape b = b.map List.length from rfl, List.getElem?_map, hrow] at hwl
    have hwl2 : wl = row.length := (Option.some.inj hwl).symm
    subst hwl2
    have hx : x = xi := Except.ok.inj (hwx.symm.trans hxi)
    subst hx
    unfold cellAt
    rw [List.getElem?_set_self hylt, Option.some_bind, List.getElem?_set_self hxlt]
  · intro hnw
    unfold cellAt
    by_cases hy : y = yi
    · subst hy
      rw [List.getElem?_set_self hylt, hrow, Option.some_bind, Option.some_bind]
      by_cases hx : x = xi
      · exfalso
        apply hnw
        subst hx
        refine ⟨?_, row.length, ?_, ?_⟩
        · rw [show (shape b).length = b.length from hsl]
          exact hyi
        · rw [show shape b = b.map List.length from rfl, List.getElem?_map, hrow]
          rfl
        · exact hxi
      · rw [List.getElem?_set_ne (fun hc => hx hc.symm)]
    · rw [List.getElem?_set_ne (fun hc => hy hc.symm)]

theorem stamp_fold_frame (v : String) :
    ∀ (l : List Position) (b b2 : List (List String)),
      l.foldlM (fun bb p => setCell bb p.y p.x v) b = .ok b2 →
      shape b2 = shape b ∧
      ∀ y x : Nat, (∀ p ∈ l, ¬ writesTo (shape b) p y x) → cellAt b2 y x = cellAt b y x := by
  intro l
  induction l with
  | nil =>
    intro b b2 hfold
    rw [List.foldlM_nil] at hfold
    obtain rfl := Except.ok.inj hfold
    exact ⟨rfl, fun y x _ => rfl⟩
  | cons p t ih =>
    intro b b2 hfold
    rw [List.foldlM_cons] at hfold
    cases hc : setCell b p.y p.x v with
    | error e =>
      rw [hc, py_bind_err] at hfold
      exact Except.noConfusion hfold
    | ok c =>
      rw [hc, py_bind_ok] at hfold
      obtain ⟨hsh, hcell⟩ := ih c b2 hfold
      have hshC : shape c = shape b := setCell_shape hc
      refine ⟨hsh.trans hshC, ?_⟩
      intro y x hnall
      have h1 : cellAt c y x = cellAt b y x :=
        (setCell_cellAt hc y x).2 (hnall p (List.mem_cons_self p t))
      have h2 : cellAt b2 y x = cellAt c y x := by
        refine hcell y x ?_
        intro q hq
        rw [hshC]
        exact hnall q (List.mem_cons_of_mem p hq)
      exact h2.trans h1

theorem stamp_fold_agree (v : String) :
    ∀ (l : List Position) (b b2 bt bt2 : List (List String)),
      shape b = shape bt →
      l.foldlM (fun bb p => setCell bb p.y p.x v) b = .ok b2 →
      l.foldlM (fun bb p => setCell bb p.y p.x v) bt = .ok bt2 →
      ∀ y x : Nat, cellAt b y x = cellAt bt y x → cellAt b2 y x = cellAt bt2 y x := by
  intro l
  induction l with
  | nil =>
    intro b b2 bt bt2 hsh hf hf2 y x hag
    rw [List.foldlM_nil] at hf hf2
    rw [← Except.ok.inj hf, ← Except.ok.inj hf2]
    exact hag
  | cons p t ih =>
    intro b b2 bt bt2 hsh hf hf2 y x hag
    rw [List.foldlM_cons] at hf hf2
    cases hc : setCell b p.y p.x v with
    | error e =>
      rw [hc, py_bind_err] at hf
      exact Except.noConfusion hf
    | ok c =>
      cases hc2 : setCell bt p.y p.x v with
      | error e =>
        rw [hc2, py_bind_err] at hf2
        exact Except.noConfusion hf2
      | ok c2 =>
        rw [hc, py_bind_ok] at hf
        rw [hc2, py_bind_ok] at hf2
        have hshc : shape c = shape b := setCell_shape hc
        have hshc2 : shape c2 = shape bt := setCell_shape hc2
        refine ih c b2 c2 bt2 (hshc.trans (hsh.trans hshc2.symm)) hf hf2 y x ?_
        by_cases hw : writesTo (shape b) p y x
        · rw [(setCell_cellAt hc y x).1 hw,
            (setCell_cellAt hc2 y x).1 (by rw [← hsh]; exact hw)]
        · rw [(setCell_cellAt hc y x).2 hw,
            (setCell_cellAt hc2 y x).2 (by rw [← hsh]; exact hw)]
          exact hag

theorem stamp_board_inv {b0 b4 : List (List String)} {u : GameState}
    (h : stamp_board b0 u = .ok b4) :
    ∃ bm bb bs,
      u.mushrooms.foldlM
        (fun bb p => setCell bb p.y p.x GameEntity.MUSHROOM.value) b0 = .ok bm ∧
      u.bullets.foldlM
        (fun bb p => setCell bb p.y p.x GameEntity.BULLET.value) bm = .ok bb ∧
      u.centipede_segments.foldlM
        (fun bb p => setCell bb p.y p.x GameEntity.CENTIPEDE.value) bb = .ok bs ∧
      setCell bs u.player_pos.y u.player_pos.x GameEntity.PLAYER.value = .ok b4 := by
  unfold stamp_board at h
  cases h1 : u.mushrooms.foldlM
      (fun bb p => setCell bb p.y p.x GameEntity.MUSHROOM.value) b0 with
  | error e =>
    rw [h1, py_bind_err] at h
    exact Except.noConfusion h
  | ok bm =>
    rw [h1, py_bind_ok] at h
    cases h2 : u.bullets.foldlM
        (fun bb p => setCell bb p.y p.x GameEntity.BULLET.value) bm with
    | error e =>
      rw [h2, py_bind_err] at h
      exact Except.noConfusion h
    | ok bb =>
      rw [h2, py_bind_ok] at h
      cases h3 : u.centipede_segments.foldlM
          (fun bb p => setCell bb p.y p.x GameEntity.CENTIPEDE.value) bb with
      | error e =>
        rw [h3, py_bind_err] at h
        exact Except.noConfusion h
      | ok bs =>
        rw [h3, py_bind_ok] at h
        exact ⟨bm, bb, bs, rfl, h2, h3, h⟩

theorem process_bullet_pair (u v : GameState) (b : Position)
    (hsc : u.score = v.score) (hpp : u.player_pos = v.player_pos)
    (hsegs : u.centipede_segments = v.centipede_segments) (hbul : u.bullets = v.bullets)
    (hgo : u.game_over = v.game_over) (hdir : u.direction = v.direction) :
    (process_bullet u b).score = (process_bullet v b).score ∧
    (process_bullet u b).player_pos = (process_bullet v b).player_pos ∧
    (process_bullet u b).centipede_segments = (process_bullet v b).centipede_segments ∧
    (process_bullet u b).bullets = (process_bullet v b).bullets ∧
    (process_bullet u b).game_over = (process_bullet v b).game_over ∧
    (process_bullet u b).direction = (process_bullet v b).direction ∧
    ((process_bullet u b).mushrooms = u.mushrooms ∧
       (process_bullet v b).mushrooms = v.mushrooms ∨
     ∃ q, (process_bullet u b).mushrooms = u.mushrooms ++ [q] ∧
       (process_bullet v b).mushrooms = v.mushrooms ++ [q]) := by
  unfold process_bullet
  dsimp only
  by_cases h0 : 0 ≤ b.y - 1
  · rw [if_pos h0, if_pos h0, hsegs]
    cases hh : hit_segment ⟨b.x, b.y - 1⟩ v.centipede_segments with
    | some sr =>
      obtain ⟨seg, rem⟩ := sr
      dsimp only
      exact ⟨by rw [hsc], by rw [hpp], rfl, by rw [hbul], by rw [hgo], by rw [hdir],
        Or.inr ⟨⟨seg.x, seg.y⟩, rfl, rfl⟩⟩
    | none =>
      dsimp only
      exact ⟨hsc, hpp, rfl, by rw [hbul], hgo, hdir, Or.inl ⟨rfl, rfl⟩⟩
  · rw [if_neg h0, if_neg h0]
    exact ⟨hsc, hpp, hsegs, hbul, hgo, hdir, Or.inl ⟨rfl, rfl⟩⟩

theorem update_bullets_pair (s t : GameState)
    (hsc : s.score = t.score) (hpp : s.player_pos = t.player_pos)
    (hsegs : s.centipede_segments = t.centipede_segments) (hbul : s.bullets = t.bullets)
    (hgo : s.game_over = t.game_over) (hdir : s.direction = t.direction) :
    (update_bullets s).score = (update_bullets t).score ∧
    (update_bullets s).player_pos = (update_bullets t).player_pos ∧
    (update_bullets s).centipede_segments = (update_bullets t).centipede_segments ∧
    (update_bullets s).bullets = (update_bullets t).bullets ∧
    (update_bullets s).game_over = (update_bullets t).game_over ∧
    (update_bullets s).direction = (update_bullets t).direction ∧
    ∃ k, (update_bullets s).mushrooms = s.mushrooms ++ k ∧
      (update_bullets t).mushrooms = t.mushrooms ++ k := by
  unfold update_bullets
  rw [← hbul]
  have H : ∀ (L : List Position) (u v : GameState),
      u.score = v.score → u.player_pos = v.player_pos →
      u.centipede_segments = v.centipede_segments → u.bullets = v.bullets →
      u.game_over = v.game_over → u.direction = v.direction →
      (∃ k0, u.mushrooms = s.mushrooms ++ k0 ∧ v.mushrooms = t.mushrooms ++ k0) →
      (L.foldl process_bullet u).score = (L.foldl process_bullet v).score ∧
      (L.foldl process_bullet u).player_pos = (L.foldl process_bullet v).player_pos ∧
      (L.foldl process_bullet u).centipede_segments
        = (L.foldl process_bullet v).centipede_segments ∧
      (L.foldl process_bullet u).bullets = (L.foldl process_bullet v).bullets ∧
      (L.foldl process_bullet u).game_over = (L.foldl process_bullet v).game_over ∧
      (L.foldl process_bullet u).direction = (L.foldl process_bullet v).direction ∧
      ∃ k, (L.foldl process_bullet u).mushrooms = s.mushrooms ++ k ∧
        (L.foldl process_bullet v).mushrooms = t.mushrooms ++ k := by
    intro L
    induction L with
    | nil =>
      intro u v h1 h2 h3 h4 h5 h6 h7
      exact ⟨h1, h2, h3, h4, h5, h6, h7⟩
    | cons b Lt ih =>
      intro u v h1 h2 h3 h4 h5 h6 h7
      rw [List.foldl_cons, List.foldl_cons]
      obtain ⟨e1, e2, e3, e4, e5, e6, e7⟩ := process_bullet_pair u v b h1 h2 h3 h4 h5 h6
      obtain ⟨k0, hu, hv⟩ := h7
      refine ih (process_bullet u b) (process_bullet v b) e1 e2 e3 e4 e5 e6 ?_
      rcases e7 with ⟨eu, ev⟩ | ⟨q, eu, ev⟩
      · exact ⟨k0, by rw [eu, hu], by rw [ev, hv]⟩
      · exact ⟨k0 ++ [q], by rw [eu, hu, List.append_assoc],
          by rw [ev, hv, List.append_assoc]⟩
  exact H s.bullets { s with bullets := [] } { t with bullets := [] }
    hsc hpp hsegs rfl hgo hdir ⟨[], by simp, by simp⟩

theorem check_game_over_pair (hh : Int) (u v : GameState)
    (hgo : u.game_over = v.game_over)
    (hsegs : u.centipede_segments = v.centipede_segments) :
    (check_game_over hh u).game_over = (check_game_over hh v).game_over := by
  unfold check_game_over
  dsimp only
  rw [hsegs, hgo]

theorem centipede_decide_pair (strat : String) (cd : Int) (rand : ℚ) (u v : GameState)
    (hsegs : u.centipede_segments = v.centipede_segments) (hbul : u.bullets = v.bullets)
    (hdir : u.direction = v.direction) :
    ((centipede_make_decision strat cd rand u).1).direction
      = ((centipede_make_decision strat cd rand v).1).direction ∧
    (centipede_make_decision strat cd rand u).2
      = (centipede_make_decision strat cd rand v).2 := by
  unfold centipede_make_decision
  rw [hsegs]
  cases hs : v.centipede_segments with
  | nil => exact ⟨hdir, rfl⟩
  | cons head rest =>
    dsimp only
    rw [hbul, hdir]
    constructor
    · split <;> split <;> rfl
    · split <;> split <;> rfl

theorem predict_mush (bd : List (List String)) (sc : Int) (pp : Position)
    (cs mu m bu : List Position) (go : Bool) (di : Direction) :
    predict_centipede_position ⟨bd, sc, pp, cs, m, bu, go, di⟩
      = predict_centipede_position ⟨bd, sc, pp, cs, mu, bu, go, di⟩ := by
  cases cs <;> rfl

theorem move_player_mush (bd : List (List String)) (sc : Int) (pp : Position)
    (cs mu m bu : List Position) (go : Bool) (di : Direction) (d : Direction) :
    move_player ⟨bd, sc, pp, cs, m, bu, go, di⟩ d
      = Except.map (fun r => { r with mushrooms := m })
          (move_player ⟨bd, sc, pp, cs, mu, bu, go, di⟩ d) := by
  unfold move_player
  dsimp only
  by_cases h1 : (pp.move d).x < 0
  · rw [if_pos h1, if_pos h1]
    rfl
  · rw [if_neg h1, if_neg h1]
    cases hg : pyGet bd 0 with
    | error e =>
      simp only [py_bind_err, py_map_err]
    | ok row0 =>
      simp only [py_bind_ok]
      by_cases h2 : (pp.move d).x < (row0.length : Int)
      · rw [if_pos h2, if_pos h2]
        by_cases h3 : (pp.move d).y < 0
        · rw [if_pos h3, if_pos h3]
          rfl
        · rw [if_neg h3, if_neg h3]
          by_cases h4 : (pp.move d).y < (bd.length : Int)
          · rw [if_pos h4, if_pos h4]
            rfl
          · rw [if_neg h4, if_neg h4]
            rfl
      · rw [if_neg h2, if_neg h2]
        rfl

theorem shooter_mush (strat : String) (s : GameState) (m : List Position) :
    shooter_make_decision strat { s with mushrooms := m }
      = Except.map (fun r => { r with mushrooms := m })
          (shooter_make_decision strat s) := by
  obtain ⟨bd, sc, pp, cs, mu, bu, go, di⟩ := s
  unfold shooter_make_decision
  dsimp only
  cases cs with
  | nil => rfl
  | cons head rest =>
    dsimp only
    have hcore : ∀ target : Position,
        ((if pp.x < target.x then
            (move_player ⟨bd, sc, pp, head :: rest, m, bu, go, di⟩ .RIGHT >>= fun s1 =>
              if |s1.player_pos.x - target.x| ≤ 1
              then (Except.ok (shoot s1) : Py GameState) else .ok s1)
          else if target.x < pp.x then
            (move_player ⟨bd, sc, pp, head :: rest, m, bu, go, di⟩ .LEFT >>= fun s1 =>
              if |s1.player_pos.x - target.x| ≤ 1
              then (Except.ok (shoot s1) : Py GameState) else .ok s1)
          else
            ((Except.ok (⟨bd, sc, pp, head :: rest, m, bu, go, di⟩ : GameState)
                : Py GameState) >>= fun s1 =>
              if |s1.player_pos.x - target.x| ≤ 1
              then (Except.ok (shoot s1) : Py GameState) else .ok s1)) : Py GameState)
          = Except.map (fun r => { r with mushrooms := m })
            (if pp.x < target.x then
              (move_player ⟨bd, sc, pp, head :: rest, mu, bu, go, di⟩ .RIGHT >>= fun s1 =>
                if |s1.player_pos.x - target.x| ≤ 1
                then (Except.ok (shoot s1) : Py GameState) else .ok s1)
            else if target.x < pp.x then
              (move_player ⟨bd, sc, pp, head :: rest, mu, bu, go, di⟩ .LEFT >>= fun s1 =>
                if |s1.player_pos.x - target.x| ≤ 1
                then (Except.ok (shoot s1) : Py GameState) else .ok s1)
            else
              ((Except.ok (⟨bd, sc, pp, head :: rest, mu, bu, go, di⟩ : GameState)
                  : Py GameState) >>= fun s1 =>
                if |s1.player_pos.x - target.x| ≤ 1
                then (Except.ok (shoot s1) : Py GameState) else .ok s1)) := by
      intro target
      by_cases h1 : pp.x < target.x
      · rw [if_pos h1, if_pos h1, move_player_mush bd sc pp (head :: rest) mu m bu go di]
        cases hm : move_player ⟨bd, sc, pp, head :: rest, mu, bu, go, di⟩ .RIGHT with
        | error e =>
          simp only [py_map_err, py_bind_err]
        | ok s2 =>
          simp only [py_map_ok, py_bind_ok]
          dsimp only
          by_cases h5 : |s2.player_pos.x - target.x| ≤ 1
          · rw [if_pos h5, if_pos h5]
            rfl
          · rw [if_neg h5, if_neg h5]
            rfl
      · rw [if_neg h1, if_neg h1]
        by_cases h2 : target.x < pp.x
        · rw [if_pos h2, if_pos h2, move_player_mush bd sc pp (head :: rest) mu m bu go di]
          cases hm : move_player ⟨bd, sc, pp, head :: rest, mu, bu, go, di⟩ .LEFT with
          | error e =>
            simp only [py_map_err, py_bind_err]
          | ok s2 =>
            simp only [py_map_ok, py_bind_ok]
            dsimp only
            by_cases h5 : |s2.player_pos.x - target.x| ≤ 1
            · rw [if_pos h5, if_pos h5]
              rfl
            · rw [if_neg h5, if_neg h5]
              rfl
        · rw [if_neg h2, if_neg h2]
          simp only [py_bind_ok]
          dsimp only
          by_cases h5 : |pp.x - target.x| ≤ 1
          · rw [if_pos h5, if_pos h5]
            rfl
          · rw [if_neg h5, if_neg h5]
            rfl
    by_cases hstrat : strat = "predictive"
    · rw [if_pos hstrat, if_pos hstrat,
        predict_mush bd sc pp (head :: rest) mu m bu go di]
      cases hp : predict_centipede_position ⟨bd, sc, pp, head :: rest, mu, bu, go, di⟩ with
      | error e =>
        simp only [py_bind_err, py_map_err]
      | ok target =>
        simp only [py_bind_ok]
        dsimp only
        exact hcore target
    · rw [if_neg hstrat, if_neg hstrat]
      simp only [py_bind_ok]
      dsimp only
      exact hcore head

/-- C10: mushroom positions influence nothing but the rendered board.  For
two states identical except for their mushrooms lists: the centipede agent
returns the same direction and cooldown and leaves both mushroom lists
untouched; the shooter returns the same state up to the (unchanged)
mushrooms; and when both updates succeed they agree on score, player
position, segments, bullets, direction and game-over flag, append the same
destroyed-segment positions to their mushroom lists, and their boards can
differ only at cells to which some mushroom of one of the two resulting
states is drawn. -/
theorem C10_mushroom_noninterference (s t : GameState)
    (hb : s.board = t.board) (hsc : s.score = t.score) (hpp : s.player_pos = t.player_pos)
    (hseg : s.centipede_segments = t.centipede_segments) (hbul : s.bullets = t.bullets)
    (hgo : s.game_over = t.game_over) (hdir : s.direction = t.direction) :
    (∀ (cstrat : String) (cd : Int) (rand : ℚ),
      ((centipede_make_decision cstrat cd rand s).1).direction
        = ((centipede_make_decision cstrat cd rand t).1).direction ∧
      (centipede_make_decision cstrat cd rand s).2
        = (centipede_make_decision cstrat cd rand t).2 ∧
      ((centipede_make_decision cstrat cd rand s).1).mushrooms = s.mushrooms ∧
      ((centipede_make_decision cstrat cd rand t).1).mushrooms = t.mushrooms) ∧
    (∀ (sstrat : String) (s1 : GameState), shooter_make_decision sstrat s = .ok s1 →
      shooter_make_decision sstrat t = .ok { s1 with mushrooms := t.mushrooms } ∧
      s1.mushrooms = s.mushrooms) ∧
    (∀ s3 t3 : GameState, update_game_state s = .ok s3 → update_game_state t = .ok t3 →
      s3.score = t3.score ∧ s3.player_pos = t3.player_pos ∧
      s3.centipede_segments = t3.centipede_segments ∧ s3.bullets = t3.bullets ∧
      s3.direction = t3.direction ∧ s3.game_over = t3.game_over ∧
      (∃ k, s3.mushrooms = s.mushrooms ++ k ∧ t3.mushrooms = t.mushrooms ++ k) ∧
      (∀ y x : Nat, cellAt s3.board y x ≠ cellAt t3.board y x →
        ∃ p, (p ∈ s3.mushrooms ∨ p ∈ t3.mushrooms) ∧ writesTo (shape s3.board) p y x)) := by
  have htform : t = { s with mushrooms := t.mushrooms } :=
    gamestate_ext hb.symm hsc.symm hpp.symm hseg.symm rfl hbul.symm hgo.symm hdir.symm
  refine ⟨?_, ?_, ?_⟩
  · intro cstrat cd rand
    obtain ⟨e1, e2⟩ := centipede_decide_pair cstrat cd rand s t hseg hbul hdir
    exact ⟨e1, e2, (centipede_decide_fields cstrat cd rand s).2.2.2.1,
      (centipede_decide_fields cstrat cd rand t).2.2.2.1⟩
  · intro sstrat s1 hs1
    have h2 : shooter_make_decision sstrat t
        = Except.map (fun r => { r with mushrooms := t.mushrooms })
          (shooter_make_decision sstrat s) := by
      conv_lhs => rw [htform]
      exact shooter_mush sstrat s t.mushrooms
    constructor
    · rw [h2, hs1, py_map_ok]
    · exact (shooter_fields hs1).2.2.1
  · intro s3 t3 hs3ok ht3ok
    obtain ⟨r0, rows, b1, b2, hbd, hclear, hstamp, hs3e⟩ := update_ok_inversion hs3ok
    obtain ⟨r0t, rowst, b1t, b2t, hbdt, hcleart, hstampt, ht3e⟩ := update_ok_inversion ht3ok
    have hbb := hbd.symm.trans (hb.trans hbdt)
    obtain ⟨hr0e, hrowse⟩ : r0 = r0t ∧ rows = rowst :=
      ⟨(List.cons.inj hbb).1, (List.cons.inj hbb).2⟩
    subst hr0e
    subst hrowse
    have hb1e : b1 = b1t := by
      apply Except.ok.inj
      rw [← hclear, ← hcleart, hb]
    subst hb1e
    obtain ⟨u1, u2, u3, u4, u5, u6, k, hku, hkv⟩ :=
      update_bullets_pair s t hsc hpp hseg hbul hgo hdir
    have hmsd := move_centipede_only_segs_dir ((r0.length : Int))
      (update_bullets s) (update_bullets t) u3 u6
    have hmfS := move_centipede_fields ((r0.length : Int)) (update_bullets s)
    have hmfT := move_centipede_fields ((r0.length : Int)) (update_bullets t)
    have hs3sc : s3.score
        = (move_centipede ((r0.length : Int)) (update_bullets s)).score := by
      rw [hs3e]
      exact (check_game_over_fields _ _).1
    have ht3sc : t3.score
        = (move_centipede ((r0.length : Int)) (update_bullets t)).score := by
      rw [ht3e]
      exact (check_game_over_fields _ _).1
    have hs3pp : s3.player_pos
        = (move_centipede ((r0.length : Int)) (update_bullets s)).player_pos := by
      rw [hs3e]
      exact (check_game_over_fields _ _).2.1
    have ht3pp : t3.player_pos
        = (move_centipede ((r0.length : Int)) (update_bullets t)).player_pos := by
      rw [ht3e]
      exact (check_game_over_fields _ _).2.1
    have hs3segs : s3.centipede_segments
        = (move_centipede ((r0.length : Int)) (update_bullets s)).centipede_segments := by
      rw [hs3e]
      exact (check_game_over_fields _ _).2.2.2.2.2.2
    have ht3segs : t3.centipede_segments
        = (move_centipede ((r0.length : Int)) (update_bullets t)).centipede_segments := by
      rw [ht3e]
      exact (check_game_over_fields _ _).2.2.2.2.2.2
    have hs3bul : s3.bullets
        = (move_centipede ((r0.length : Int)) (update_bullets s)).bullets := by
      rw [hs3e]
      exact (check_game_over_fields _ _).2.2.2.1
    have ht3bul : t3.bullets
        = (move_centipede ((r0.length : Int)) (update_bullets t)).bullets := by
      rw [ht3e]
      exact (check_game_over_fields _ _).2.2.2.1
    have hs3dir : s3.direction
        = (move_centipede ((r0.length : Int)) (update_bullets s)).direction := by
      rw [hs3e]
      exact (check_game_over_fields _ _).2.2.2.2.2.1
    have ht3dir : t3.direction
        = (move_centipede ((r0.length : Int)) (update_bullets t)).direction := by
      rw [ht3e]
      exact (check_game_over_fields _ _).2.2.2.2.2.1
    have hs3m : s3.mushrooms
        = (move_centipede ((r0.length : Int)) (update_bullets s)).mushrooms := by
      rw [hs3e]
      exact (check_game_over_fields _ _).2.2.1
    have ht3m : t3.mushrooms
        = (move_centipede ((r0.length : Int)) (update_bullets t)).mushrooms := by
      rw [ht3e]
      exact (check_game_over_fields _ _).2.2.1
    have hs3b : s3.board = b2 := by
      rw [hs3e]
      exact (check_game_over_fields _ _).2.2.2.2.1
    have ht3b : t3.board = b2t := by
      rw [ht3e]
      exact (check_game_over_fields _ _).2.2.2.2.1
    refine ⟨?_, ?_, ?_, ?_, ?_, ?_, ?_, ?_⟩
    · rw [hs3sc, ht3sc, hmfS.1, hmfT.1]
      exact u1
    · rw [hs3pp, ht3pp, hmfS.2.1, hmfT.2.1]
      exact u2
    · rw [hs3segs, ht3segs]
      exact hmsd.1
    · rw [hs3bul, ht3bul, hmfS.2.2.2.1, hmfT.2.2.2.1]
      exact u4
    · rw [hs3dir, ht3dir]
      exact hmsd.2
    · rw [hs3e, ht3e, ← hb]
      refine check_game_over_pair _ _ _ ?_ ?_
      · show (move_centipede ((r0.length : Int)) (update_bullets s)).game_over
          = (move_centipede ((r0.length : Int)) (update_bullets t)).game_over
        rw [hmfS.2.2.2.2.2, hmfT.2.2.2.2.2]
        exact u5
      · show (move_centipede ((r0.length : Int)) (update_bullets s)).centipede_segments
          = (move_centipede ((r0.length : Int)) (update_bullets t)).centipede_segments
        exact hmsd.1
    · refine ⟨k, ?_, ?_⟩
      · rw [hs3m, hmfS.2.2.1]
        exact hku
      · rw [ht3m, hmfT.2.2.1]
        exact hkv
    · intro y x hne
      by_contra hnex
      push_neg at hnex
      refine hne ?_
      obtain ⟨bmS, bbS, bsS, hm1, hm2, hm3, hm4⟩ := stamp_board_inv hstamp
      obtain ⟨bmT, bbT, bsT, hn1, hn2, hn3, hn4⟩ := stamp_board_inv hstampt
      obtain ⟨hshM, hframeM⟩ := stamp_fold_frame _ _ _ _ hm1
      obtain ⟨hshMT, hframeMT⟩ := stamp_fold_frame _ _ _ _ hn1
      obtain ⟨hshB, _⟩ := stamp_fold_frame _ _ _ _ hm2
      obtain ⟨hshBT, _⟩ := stamp_fold_frame _ _ _ _ hn2
      obtain ⟨hshS, _⟩ := stamp_fold_frame _ _ _ _ hm3
      obtain ⟨hshST, _⟩ := stamp_fold_frame _ _ _ _ hn3
      have hshP : shape b2 = shape bsS := setCell_shape hm4
      have hshPT : shape b2t = shape bsT := setCell_shape hn4
      have hshb2 : shape b2 = shape b1 := by rw [hshP, hshS, hshB, hshM]
      have hno : ∀ p, (p ∈ (move_centipede ((r0.length : Int)) (update_bullets s)).mushrooms ∨
          p ∈ (move_centipede ((r0.length : Int)) (update_bullets t)).mushrooms) →
          ¬ writesTo (shape b1) p y x := by
        intro p hp
        have hmem : p ∈ s3.mushrooms ∨ p ∈ t3.mushrooms := by
          rcases hp with h | h
          · exact Or.inl (by rw [hs3m]; exact h)
          · exact Or.inr (by rw [ht3m]; exact h)
        have h2 := hnex p hmem
        rw [hs3b, hshb2] at h2
        exact h2
      rw [hs3b, ht3b]
      have e1 : cellAt bmS y x = cellAt b1 y x :=
        hframeM y x (fun p hp => hno p (Or.inl hp))
      have e1t : cellAt bmT y x = cellAt b1 y x :=
        hframeMT y x (fun p hp => hno p (Or.inr hp))
      have hagMM : cellAt bmS y x = cellAt bmT y x := e1.trans e1t.symm
      have hshMM : shape bmS = shape bmT := by rw [hshM, hshMT]
      have hbulmc : (move_centipede ((r0.length : Int)) (update_bullets s)).bullets
          = (move_centipede ((r0.length : Int)) (update_bullets t)).bullets := by
        rw [hmfS.2.2.2.1, hmfT.2.2.2.1]
        exact u4
      rw [hbulmc] at hm2
      have e2 : cellAt bbS y x = cellAt bbT y x :=
        stamp_fold_agree _ _ bmS bbS bmT bbT hshMM hm2 hn2 y x hagMM
      have hshBB : shape bbS = shape bbT := by rw [hshB, hshBT, hshMM]
      rw [hmsd.1] at hm3
      have e3 : cellAt bsS y x = cellAt bsT y x :=
        stamp_fold_agree _ _ bbS bsS bbT bsT hshBB hm3 hn3 y x e2
      have hshSS : shape bsS = shape bsT := by rw [hshS, hshST, hshBB]
      have hplmc : (move_centipede ((r0.length : Int)) (update_bullets s)).player_pos
          = (move_centipede ((r0.length : Int)) (update_bullets t)).player_pos := by
        rw [hmfS.2.1, hmfT.2.1]
        exact u2
      rw [hplmc] at hm4
      by_cases hw : writesTo (shape bsS)
          (move_centipede ((r0.length : Int)) (update_bullets t)).player_pos y x
      · rw [(setCell_cellAt hm4 y x).1 hw,
          (setCell_cellAt hn4 y x).1 (by rw [← hshSS]; exact hw)]
      · rw [(setCell_cellAt hm4 y x).2 hw,
          (setCell_cellAt hn4 y x).2 (by rw [← hshSS]; exact hw)]
        exact e3

theorem C10_mushroom_noninterference_witness :
    c1w.board = c10t.board ∧ c1w.score = c10t.score ∧ c1w.player_pos = c10t.player_pos ∧
    c1w.centipede_segments = c10t.centipede_segments ∧ c1w.bullets = c10t.bullets ∧
    c1w.game_over = c10t.game_over ∧ c1w.direction = c10t.direction ∧
    update_game_state c1w = .ok c1w2 ∧ update_game_state c10t = .ok c10t3 ∧
    c1w2.score = c10t3.score ∧ c1w2.centipede_segments = c10t3.centipede_segments ∧
    c1w2.bullets = c10t3.bullets ∧ c1w2.direction = c10t3.direction ∧
    c1w2.game_over = c10t3.game_over := by
  have h := C10_mushroom_noninterference c1w c10t rfl rfl rfl rfl rfl rfl rfl
  have h3 := h.2.2 c1w2 c10t3 (by rfl) (by rfl)
  exact ⟨rfl, rfl, rfl, rfl, rfl, rfl, rfl, by rfl, by rfl, h3.1, h3.2.2.1,
    h3.2.2.2.1, h3.2.2.2.2.1, h3.2.2.2.2.2.1⟩
